import Mathlib

/-!
Verification development for the vcml VirtIO queue engine and the ARM
GIC-400 interrupt controller model.

The definitions below are a shallow embedding of the C++ sources:
  * `src/include/vcml/protocols/virtio.h`
  * `src/src/vcml/models/arm/gic400.cpp`
Machine integers (u8/u16/u32) are embedded as `Nat`; truncating writes are
made explicit with `&&&` masks exactly where the source masks them.  Per-CPU
bitmasks (`enabled`, `pending`, ...) are `Nat` bit vectors indexed by CPU.
Banked registers are functions from the CPU index to the register value.

The header `vcml/models/arm/gic400.h` is not part of the sources; the small
inline helpers and constants it declares (bit-test accessors, `test_pending`,
`ctz`, `fls`, the interrupt-count constants) are modelled from the
specification and marked as such in their doc comments.
-/

/- ----------------------------------------------------------------- -/
/- VirtIO: vq_message (virtio.h lines 103-149)                       -/
/- ----------------------------------------------------------------- -/

/-- Status codes of `enum virtio_status` (virtio.h lines 32-39), kept as the
same signed values via `Int`. -/
inductive virtio_status where
  | VIRTIO_INCOMPLETE
  | VIRTIO_OK
  | VIRTIO_ERR_INDIRECT
  | VIRTIO_ERR_NODMI
  | VIRTIO_ERR_CHAIN
  | VIRTIO_ERR_DESC
deriving DecidableEq

/-- Scatter/gather buffer of `vq_message::vq_buffer` (virtio.h lines 112-115):
a guest address and a size. -/
structure vq_buffer where
  addr : Nat
  size : Nat
deriving DecidableEq

/-- State of `struct vq_message` (virtio.h lines 103-139) as far as
`append` touches it.  The C++ fields `in`/`out` are called
`in_bufs`/`out_bufs` because `in` is reserved in Lean. -/
structure vq_message where
  index : Nat
  length_in : Nat
  length_out : Nat
  in_bufs : List vq_buffer
  out_bufs : List vq_buffer
deriving DecidableEq

/-- Embedding of `vq_message::append` (virtio.h lines 141-149): with
`iswr = true` the buffer goes to the `out` list and `length_out` grows,
otherwise to the `in` list and `length_in` grows. -/
def vq_message.append (m : vq_message) (addr sz : Nat) (iswr : Bool) : vq_message :=
  if iswr then
    { m with out_bufs := m.out_bufs ++ [⟨addr, sz⟩], length_out := m.length_out + sz }
  else
    { m with in_bufs := m.in_bufs ++ [⟨addr, sz⟩], length_in := m.length_in + sz }

/-- Packed-ring event suppression structure `packed_virtqueue::vq_event`
(virtio.h lines 377-396). -/
structure vq_event where
  off_wrap : Nat
  flags : Nat
deriving DecidableEq

/-- Embedding of `vq_event::should_notify` (virtio.h lines 387-396).  The
`default` arm of the C++ switch executes `VCML_ERROR`, which raises a fatal
report instead of returning; that arm is embedded as `none`. -/
def vq_event.should_notify (e : vq_event) (index : Nat) : Option Bool :=
  if e.flags = 0 then some true                    -- F_EVENT_ENABLE
  else if e.flags = 1 then some false              -- F_EVENT_DISABLE
  else if e.flags = 2 then some (decide (index = e.off_wrap))  -- F_EVENT_DESC
  else none                                        -- VCML_ERROR

/- ----------------------------------------------------------------- -/
/- GIC-400 constants                                                 -/
/- ----------------------------------------------------------------- -/

/-- Modelled from the spec: SGI interrupt ids are 0-15 (glossary of the
spec), so the missing header constant `NSGI` is 16. -/
def NSGI : Nat := 16

/-- Modelled from the spec: PPI interrupt ids are 16-31, so `NPPI` is 16. -/
def NPPI : Nat := 16

/-- Modelled from the spec: private interrupts are SGIs plus PPIs. -/
def NPRIV : Nat := 32

/-- Modelled from the spec: highest supported interrupt count of the missing
header; SPI ids start at 32 and the spurious id 1023 lies above every
implemented interrupt. -/
def NIRQ : Nat := 1020

/-- Modelled from the spec: `spendsgir[cpu][sgi]` is an 8-bit mask of source
CPUs, so the model supports 8 CPUs. -/
def NCPU : Nat := 8

/-- Modelled from the spec: mask selecting all supported CPUs. -/
def ALL_CPU : Nat := 0xff

/-- Modelled from the spec: fixed size of the virtualization list-register
table (the GIC-400 hardware implements four list registers). -/
def NLR : Nat := 4

/-- Spurious interrupt id (bits [9..0] all set), the sentinel used by
`m_curr_irq`/`m_prev_irq` and `HPPIR`. -/
def SPURIOUS_IRQ : Nat := 1023

/-- Idle priority 0x100, above all valid 8-bit priorities
(gic400.cpp line 646 and the reset value of `rpr`). -/
def IDLE_PRIO : Nat := 0x100

/-- Modelled from the spec: the virtual interface tracks preemption levels
as a bitmap indexed by `prio >> (VIRT_MIN_BPR + 1)`; a 32-bit `apr` holding
all 32 levels of a 8-bit priority gives `VIRT_MIN_BPR = 2`. -/
def VIRT_MIN_BPR : Nat := 2

/-- Clearing the bits of `m` from `x` (the C pattern `x &= ~m`): since
`x &&& m` selects a sub-mask of `x`, the xor removes exactly those bits.
This equals `Nat.ldiff x m` (proved below) but reduces in the kernel. -/
def bitClear (x m : Nat) : Nat := x ^^^ (x &&& m)

/-- Modelled from the spec: count-trailing-zeros helper of the missing
header (`ctz`), with the C convention that `ctz 0` is the register width. -/
def ctzAux : Nat → Nat → Nat
  | 0, _ => 0
  | fuel + 1, n => if n % 2 = 1 then 0 else ctzAux fuel (n / 2) + 1

/-- Index of the lowest set bit; 32 for zero (see `ctzAux`). -/
def ctz (n : Nat) : Nat := if n = 0 then 32 else ctzAux 64 n

/-- Fuel-bounded binary logarithm used by `fls`. -/
def flsAux : Nat → Nat → Nat
  | 0, _ => 0
  | fuel + 1, n => if n < 2 then 0 else flsAux fuel (n / 2) + 1

/-- Modelled from the spec: find-last-set helper of the missing header
(`fls`), the zero-based index of the highest set bit of a nonzero value
(values are at most 32 bits wide, well within the fuel). -/
def fls (n : Nat) : Nat := flsAux 64 n

/-- Trigger mode of one interrupt line (`gic400::trigger`). -/
inductive Trigger where
  | EDGE
  | LEVEL
deriving DecidableEq

/-- Handling model of one interrupt line (`gic400::model`): N-to-N or
N-to-1. -/
inductive IrqModel where
  | N_N
  | N_1
deriving DecidableEq

/-- One list register's decoded state, `gic400::list_entry`
(gic400.cpp lines 31-40). -/
structure list_entry where
  pending : Bool
  active : Bool
  hw : Bool
  prio : Nat
  virtual_id : Nat
  physical_id : Nat
  cpu_id : Nat
deriving DecidableEq

/-- Default-constructed `list_entry` (gic400.cpp lines 31-40). -/
def list_entry.init : list_entry :=
  { pending := false, active := false, hw := false,
    prio := 0, virtual_id := 0, physical_id := 0, cpu_id := 0 }

/- ----------------------------------------------------------------- -/
/- GIC-400 state                                                     -/
/- ----------------------------------------------------------------- -/

/-- Complete state of one `gic400` instance: the distributor, CPU
interface, virtual interface control and virtual CPU interface registers,
plus the private members of the C++ classes.  Per-IRQ CPU bitmasks are
`Nat → Nat` (irq to mask); banked registers are `Nat → Nat` (cpu to
value); two-dimensional members keep the C++ index order. -/
structure Gic where
  /-- `m_cpu_num`, fixed at elaboration. -/
  cpu_num : Nat
  /-- `m_irq_num`, fixed at elaboration (between `NPRIV` and `NIRQ`). -/
  irq_num : Nat
  /-- `distif.ctlr`. -/
  dist_ctlr : Nat
  /-- `m_irq_state[irq].enabled` CPU mask. -/
  enabled : Nat → Nat
  /-- `m_irq_state[irq].pending` CPU mask. -/
  pending : Nat → Nat
  /-- `m_irq_state[irq].active` CPU mask. -/
  active : Nat → Nat
  /-- `m_irq_state[irq].level` CPU mask. -/
  level : Nat → Nat
  /-- `m_irq_state[irq].signaled` CPU mask. -/
  signaled : Nat → Nat
  /-- `m_irq_state[irq].trigger`. -/
  trigger : Nat → Trigger
  /-- `m_irq_state[irq].model`. -/
  model : Nat → IrqModel
  /-- `distif.ipriority_sgi.bank(cpu, irq)` (u8). -/
  ipriority_sgi : Nat → Nat → Nat
  /-- `distif.ipriority_ppi.bank(cpu, idx)` (u8). -/
  ipriority_ppi : Nat → Nat → Nat
  /-- `distif.ipriority_spi[idx]` (u8, shared). -/
  ipriority_spi : Nat → Nat
  /-- `distif.itargets_spi[idx]` (u8 CPU mask, shared). -/
  itargets_spi : Nat → Nat
  /-- `distif.spendsgir.bank(cpu, sgi)` (u8 source-CPU mask). -/
  spendsgir : Nat → Nat → Nat
  /-- `distif.cpendsgir.bank(cpu, sgi)` (u8 source-CPU mask). -/
  cpendsgir : Nat → Nat → Nat
  /-- `cpuif.ctlr.bank(cpu)`. -/
  cpu_ctlr : Nat → Nat
  /-- `cpuif.pmr.bank(cpu)`. -/
  pmr : Nat → Nat
  /-- `cpuif.bpr.bank(cpu)`. -/
  bpr : Nat → Nat
  /-- `cpuif.abpr.bank(cpu)`. -/
  abpr : Nat → Nat
  /-- `cpuif.rpr.bank(cpu)`. -/
  rpr : Nat → Nat
  /-- `cpuif.hppir.bank(cpu)`. -/
  hppir : Nat → Nat
  /-- `cpuif.iar.bank(cpu)` (value stored by `read_iar`). -/
  iar_reg : Nat → Nat
  /-- `cpuif::m_curr_irq[cpu]`. -/
  curr_irq : Nat → Nat
  /-- `cpuif::m_prev_irq[irq][cpu]`. -/
  prev_irq : Nat → Nat → Nat
  /-- physical interrupt output lines `irq_out[cpu]`. -/
  irq_out : Nat → Bool
  /-- `vifctrl.hcr.bank(cpu)`. -/
  hcr : Nat → Nat
  /-- `vifctrl.apr.bank(cpu)`. -/
  vapr : Nat → Nat
  /-- `vifctrl.lr.bank(cpu, idx)` raw 32-bit list registers. -/
  lr : Nat → Nat → Nat
  /-- `vifctrl::m_lr_state[cpu][idx]`. -/
  lr_state : Nat → Nat → list_entry
  /-- `vcpuif.ctlr.bank(cpu)`. -/
  v_ctlr : Nat → Nat
  /-- `vcpuif.pmr.bank(cpu)`. -/
  v_pmr : Nat → Nat
  /-- `vcpuif.bpr.bank(cpu)`. -/
  v_bpr : Nat → Nat
  /-- `vcpuif.rpr.bank(cpu)`. -/
  v_rpr : Nat → Nat
  /-- `vcpuif.hppir.bank(cpu)`. -/
  v_hppir : Nat → Nat
  /-- `vcpuif.eoir.bank(cpu)`. -/
  v_eoir : Nat → Nat
  /-- virtual interrupt output lines `virq_out[cpu]`. -/
  virq_out : Nat → Bool

/-- Point update of a two-dimensional table. -/
def upd2 {α : Type} (f : Nat → Nat → α) (i j : Nat) (v : α) : Nat → Nat → α :=
  fun a b => if a = i ∧ b = j then v else f a b

/- ----------------------------------------------------------------- -/
/- Helpers of the missing gic400.h header                            -/
/- ----------------------------------------------------------------- -/

/-- Modelled from the spec: `gic400::is_irq_enabled(irq, mask)` tests the
`enabled` bitmask against a CPU mask. -/
def is_irq_enabled (s : Gic) (irq mask : Nat) : Bool :=
  (s.enabled irq &&& mask) != 0

/-- Modelled from the spec: `gic400::is_irq_pending(irq, mask)`. -/
def is_irq_pending (s : Gic) (irq mask : Nat) : Bool :=
  (s.pending irq &&& mask) != 0

/-- Modelled from the spec: `gic400::is_irq_active(irq, mask)`. -/
def is_irq_active (s : Gic) (irq mask : Nat) : Bool :=
  (s.active irq &&& mask) != 0

/-- Modelled from the spec: `gic400::get_irq_level(irq, mask)`. -/
def get_irq_level (s : Gic) (irq mask : Nat) : Bool :=
  (s.level irq &&& mask) != 0

/-- Modelled from the spec: `gic400::test_pending(irq, mask)` — an IRQ
counts as pending when its pending bit is set, or when it is
level-triggered and its input level is asserted (spec sections 3.2 and
4.9: a level-triggered IRQ whose level remains asserted becomes pending
again immediately after it is cleared). -/
def test_pending (s : Gic) (irq mask : Nat) : Bool :=
  is_irq_pending s irq mask ||
    (get_irq_level s irq mask && decide (s.trigger irq = Trigger.LEVEL))

/-- Modelled from the spec: `gic400::enable_irq(irq, mask)`. -/
def enable_irq (s : Gic) (irq mask : Nat) : Gic :=
  { s with enabled := Function.update s.enabled irq (s.enabled irq ||| mask) }

/-- Modelled from the spec: `gic400::disable_irq(irq, mask)`. -/
def disable_irq (s : Gic) (irq mask : Nat) : Gic :=
  { s with enabled := Function.update s.enabled irq (bitClear (s.enabled irq) mask) }

/-- Modelled from the spec: `gic400::set_irq_pending(irq, set, mask)`. -/
def set_irq_pending (s : Gic) (irq : Nat) (b : Bool) (mask : Nat) : Gic :=
  { s with
    pending := Function.update s.pending irq
      (if b then s.pending irq ||| mask else bitClear (s.pending irq) mask) }

/-- Modelled from the spec: `gic400::set_irq_active(irq, set, mask)`. -/
def set_irq_active (s : Gic) (irq : Nat) (b : Bool) (mask : Nat) : Gic :=
  { s with
    active := Function.update s.active irq
      (if b then s.active irq ||| mask else bitClear (s.active irq) mask) }

/-- Modelled from the spec: `gic400::set_irq_level(irq, set, mask)`. -/
def set_irq_level (s : Gic) (irq : Nat) (b : Bool) (mask : Nat) : Gic :=
  { s with
    level := Function.update s.level irq
      (if b then s.level irq ||| mask else bitClear (s.level irq) mask) }

/-- Modelled from the spec: `gic400::set_irq_signaled(irq, set, mask)`. -/
def set_irq_signaled (s : Gic) (irq : Nat) (b : Bool) (mask : Nat) : Gic :=
  { s with
    signaled := Function.update s.signaled irq
      (if b then s.signaled irq ||| mask else bitClear (s.signaled irq) mask) }

/-- Modelled from the spec: `gic400::set_irq_trigger(irq, t)`. -/
def set_irq_trigger (s : Gic) (irq : Nat) (t : Trigger) : Gic :=
  { s with trigger := Function.update s.trigger irq t }

/-- Modelled from the spec: `gic400::get_irq_model(irq)`. -/
def get_irq_model (s : Gic) (irq : Nat) : IrqModel := s.model irq

/-- Embedding of `gic400::get_irq_priority` (gic400.cpp lines 1252-1262):
SGI and PPI priorities are banked per CPU, SPI priorities are shared;
an out-of-range id yields 0 after an error log. -/
def get_irq_priority (s : Gic) (cpu irq : Nat) : Nat :=
  if irq < NSGI then s.ipriority_sgi cpu irq
  else if irq < NPRIV then s.ipriority_ppi cpu (irq - NSGI)
  else if irq < NIRQ then s.ipriority_spi (irq - NPRIV)
  else 0

/- ----------------------------------------------------------------- -/
/- gic400::update (gic400.cpp lines 1145-1250)                       -/
/- ----------------------------------------------------------------- -/

/-- One step of the SGI scan of `gic400::update` (lines 1170-1179):
enabled, pending, not active, banked SGI priority strictly better. -/
def sgiStep (s : Gic) (cpu : Nat) (b : Nat × Nat) (irq : Nat) : Nat × Nat :=
  if is_irq_enabled s irq (1 <<< cpu) && test_pending s irq (1 <<< cpu) &&
     !is_irq_active s irq (1 <<< cpu) && decide (s.ipriority_sgi cpu irq < b.1)
  then (s.ipriority_sgi cpu irq, irq) else b

/-- One step of the PPI scan of `gic400::update` (lines 1181-1191). -/
def ppiStep (s : Gic) (cpu : Nat) (b : Nat × Nat) (irq : Nat) : Nat × Nat :=
  if is_irq_enabled s irq (1 <<< cpu) && test_pending s irq (1 <<< cpu) &&
     !is_irq_active s irq (1 <<< cpu) &&
     decide (s.ipriority_ppi cpu (irq - NSGI) < b.1)
  then (s.ipriority_ppi cpu (irq - NSGI), irq) else b

/-- One step of the SPI scan of `gic400::update` (lines 1193-1204), with
the additional `itargets_spi` target-mask test. -/
def spiStep (s : Gic) (cpu : Nat) (b : Nat × Nat) (irq : Nat) : Nat × Nat :=
  if is_irq_enabled s irq (1 <<< cpu) && test_pending s irq (1 <<< cpu) &&
     ((s.itargets_spi (irq - NPRIV) &&& (1 <<< cpu)) != 0) &&
     !is_irq_active s irq (1 <<< cpu) &&
     decide (s.ipriority_spi (irq - NPRIV) < b.1)
  then (s.ipriority_spi (irq - NPRIV), irq) else b

/-- The physical arbitration scan of `gic400::update` for one CPU: SGIs,
then PPIs, then SPIs up to `m_irq_num`, starting from
`( IDLE_PRIO, SPURIOUS_IRQ)`. -/
def bestPhys (s : Gic) (cpu : Nat) : Nat × Nat :=
  let b1 := (List.range NSGI).foldl (sgiStep s cpu) ( IDLE_PRIO, SPURIOUS_IRQ)
  let b2 := (List.range' NSGI NPPI).foldl (ppiStep s cpu) b1
  (List.range' NPRIV (s.irq_num - NPRIV)).foldl (spiStep s cpu) b2

/-- One step of the list-register scan of `gic400::update` in the virtual
case (lines 1207-1216): pending list registers compete with the priority
field (bits 27-23) of the raw register; the winning id is bits 8-0. -/
def lrStep (s : Gic) (cpu : Nat) (b : Nat × Nat) (i : Nat) : Nat × Nat :=
  if (s.lr_state cpu i).pending && decide ((s.lr cpu i >>> 23) &&& 0x1f < b.1)
  then ((s.lr cpu i >>> 23) &&& 0x1f, s.lr cpu i &&& 0x1ff) else b

/-- The virtual arbitration scan of `gic400::update` for one CPU. -/
def bestVirt (s : Gic) (cpu : Nat) : Nat × Nat :=
  (List.range NLR).foldl (lrStep s cpu) ( IDLE_PRIO, SPURIOUS_IRQ)

/-- New `hppir` bank after one iteration of the `gic400::update` CPU loop:
reset to SPURIOUS, left there when the distributor or the CPU interface is
disabled, and overwritten with the arbitration winner only when the winning
priority beats `PMR` (lines 1152-1161 and 1221-1227). -/
def hppirNext (virt : Bool) (s : Gic) (cpu : Nat) : Nat → Nat :=
  if virt then s.hppir
  else if s.dist_ctlr = 0 ∨ s.cpu_ctlr cpu = 0 then
    Function.update s.hppir cpu SPURIOUS_IRQ
  else
    Function.update s.hppir cpu
      (if (bestPhys s cpu).1 < s.pmr cpu then (bestPhys s cpu).2 else SPURIOUS_IRQ)

/-- New physical output line after one iteration of the `gic400::update`
CPU loop (lines 1157-1161, 1219-1227 and 1236-1241). -/
def irqOutNext (virt : Bool) (s : Gic) (cpu : Nat) : Nat → Bool :=
  if virt then s.irq_out
  else if s.dist_ctlr = 0 ∨ s.cpu_ctlr cpu = 0 then
    Function.update s.irq_out cpu false
  else
    Function.update s.irq_out cpu
      (decide ((bestPhys s cpu).1 < s.pmr cpu) &&
       decide ((bestPhys s cpu).1 < s.rpr cpu))

/-- New virtual `hppir` bank after one iteration of the `gic400::update`
CPU loop (virtual case, lines 1154-1155, 1163-1167 and 1228-1233). -/
def vHppirNext (virt : Bool) (s : Gic) (cpu : Nat) : Nat → Nat :=
  if virt then
    if s.hcr cpu = 0 then Function.update s.v_hppir cpu SPURIOUS_IRQ
    else
      Function.update s.v_hppir cpu
        (if (bestVirt s cpu).1 < s.v_pmr cpu then (bestVirt s cpu).2 else SPURIOUS_IRQ)
  else s.v_hppir

/-- New virtual output line after one iteration of the `gic400::update`
CPU loop (virtual case). -/
def virqOutNext (virt : Bool) (s : Gic) (cpu : Nat) : Nat → Bool :=
  if virt then
    if s.hcr cpu = 0 then Function.update s.virq_out cpu false
    else
      Function.update s.virq_out cpu
        (decide ((bestVirt s cpu).1 < s.v_pmr cpu) &&
         decide ((bestVirt s cpu).1 < s.v_rpr cpu))
  else s.virq_out

/-- One iteration of the per-CPU loop of `gic400::update`
(gic400.cpp lines 1146-1249).  Each iteration reads only distributor and
per-CPU input state and writes only the `hppir`/output banks of its CPU,
so the loop body is the simultaneous update of those four fields. -/
def updateCpu (virt : Bool) (s : Gic) (cpu : Nat) : Gic :=
  { s with
    hppir := hppirNext virt s cpu,
    irq_out := irqOutNext virt s cpu,
    v_hppir := vHppirNext virt s cpu,
    virq_out := virqOutNext virt s cpu }

/-- Embedding of `gic400::update(bool virt)` (gic400.cpp lines 1145-1250):
the per-CPU loop over `m_cpu_num` CPUs. -/
def gic_update (virt : Bool) (s : Gic) : Gic :=
  (List.range s.cpu_num).foldl (updateCpu virt) s

/- ----------------------------------------------------------------- -/
/- Distributor operations (gic400.cpp distif)                        -/
/- ----------------------------------------------------------------- -/

/-- Embedding of `gic400::distif::write_ctlr` (gic400.cpp lines 78-83):
only the two group-enable bits are kept, then a distributor update runs. -/
def distif.write_ctlr (s : Gic) (val : Nat) : Gic :=
  gic_update false { s with dist_ctlr := val &&& 3 }

/-- Embedding of `gic400::distif::set_sgi_pending`
(gic400.cpp lines 625-634): or the source mask into, or clear it from,
both SGI pending-source banks. -/
def distif.set_sgi_pending (s : Gic) (value sgi cpu : Nat) (b : Bool) : Gic :=
  if b then
    { s with
      spendsgir := upd2 s.spendsgir cpu sgi (s.spendsgir cpu sgi ||| value),
      cpendsgir := upd2 s.cpendsgir cpu sgi (s.cpendsgir cpu sgi ||| value) }
  else
    { s with
      spendsgir := upd2 s.spendsgir cpu sgi (bitClear (s.spendsgir cpu sgi) value),
      cpendsgir := upd2 s.cpendsgir cpu sgi (bitClear (s.cpendsgir cpu sgi) value) }

/-- Embedding of `gic400::distif::write_sspr` (gic400.cpp lines 235-243),
the SPI set-pending handler: each set bit `i` of the written value makes
SPI `NPRIV + idx*32 + i` pending with the CPU mask `itargets_spi[i]`
(note: the source indexes the target table with the bit index `i`, not
with the SPI index `idx*32 + i`). -/
def distif.write_sspr (s : Gic) (value idx : Nat) : Gic :=
  let irq := NPRIV + idx * 32
  let t := (List.range 32).foldl
    (fun t i =>
      if value.testBit i then set_irq_pending t (irq + i) true (t.itargets_spi i)
      else t) s
  gic_update false t

/-- Embedding of `gic400::distif::write_ispendr_ppi`
(gic400.cpp lines 213-229) for a given current CPU. -/
def distif.write_ispendr_ppi (s : Gic) (value cpu : Nat) : Gic :=
  let mask := 1 <<< cpu
  let t := (List.range' NSGI (NPRIV - NSGI)).foldl
    (fun t irq =>
      if value.testBit irq then set_irq_pending t irq true mask else t) s
  gic_update false t

/-- Embedding of `gic400::distif::write_icpendr_ppi`
(gic400.cpp lines 255-271). -/
def distif.write_icpendr_ppi (s : Gic) (value cpu : Nat) : Gic :=
  let mask := 1 <<< cpu
  let t := (List.range' NSGI (NPRIV - NSGI)).foldl
    (fun t irq =>
      if value.testBit irq then set_irq_pending t irq false mask else t) s
  gic_update false t

/-- Embedding of `gic400::distif::write_isenabler_spi`
(gic400.cpp lines 137-150): enabling a level-triggered SPI whose level is
asserted immediately makes it pending. -/
def distif.write_isenabler_spi (s : Gic) (val idx : Nat) : Gic :=
  let irq := NPRIV + idx * 32
  let t := (List.range 32).foldl
    (fun t i =>
      if val.testBit i then
        let t := enable_irq t (irq + i) ALL_CPU
        if get_irq_level t (irq + i) ALL_CPU &&
           decide (t.trigger (irq + i) = Trigger.LEVEL)
        then set_irq_pending t (irq + i) true ALL_CPU
        else t
      else t) s
  gic_update false t

/-- Embedding of `gic400::distif::write_icenabler_spi`
(gic400.cpp lines 193-201). -/
def distif.write_icenabler_spi (s : Gic) (val idx : Nat) : Gic :=
  let irq := NPRIV + idx * 32
  let t := (List.range 32).foldl
    (fun t i => if val.testBit i then disable_irq t (irq + i) ALL_CPU else t) s
  gic_update false t

/-- Embedding of `gic400::distif::write_icpendr_spi`
(gic400.cpp lines 277-285). -/
def distif.write_icpendr_spi (s : Gic) (val idx : Nat) : Gic :=
  let irq := NPRIV + idx * 32
  let t := (List.range 32).foldl
    (fun t i =>
      if val.testBit i then set_irq_pending t (irq + i) false ALL_CPU else t) s
  gic_update false t

/-- Embedding of `gic400::distif::write_icactiver_spi`
(gic400.cpp lines 331-337); the source runs no distributor update here. -/
def distif.write_icactiver_spi (s : Gic) (val idx : Nat) : Gic :=
  let irq := NPRIV + idx * 32
  (List.range 32).foldl
    (fun t i =>
      if val.testBit i then set_irq_active t (irq + i) false ALL_CPU else t) s

/-- Embedding of `gic400::distif::write_sgir` (gic400.cpp lines 384-421)
for a given current CPU: decode SGI number, target list and filter, make
the SGI pending for the targets, record the source CPU in the SGI pending
banks of each target, clear `signaled` and update. -/
def distif.write_sgir (s : Gic) (value cpu : Nat) : Gic :=
  let src_cpu := 1 <<< cpu
  let sgi_num := value &&& 0x0f
  let targets0 := (value >>> 16) &&& 0xff
  let filters := (value >>> 24) &&& 0x03
  let targets :=
    if filters = 0 then targets0
    else if filters = 1 then ALL_CPU ^^^ src_cpu
    else if filters = 2 then 1 <<< cpu
    else targets0
  let t := set_irq_pending s sgi_num true targets
  let t := (List.range NCPU).foldl
    (fun t target =>
      if targets.testBit target then
        distif.set_sgi_pending t (1 <<< cpu) sgi_num target true
      else t) t
  let t := set_irq_signaled t sgi_num false targets
  gic_update false t

/-- Embedding of `gic400::distif::write_spendsgir`
(gic400.cpp lines 423-437) for a given current CPU. -/
def distif.write_spendsgir (s : Gic) (value idx cpu : Nat) : Gic :=
  let mask := 1 <<< cpu
  let t := distif.set_sgi_pending s value idx cpu true
  let t := set_irq_pending t idx true mask
  let t := set_irq_signaled t idx false mask
  gic_update false t

/-- Embedding of `gic400::distif::write_cpendsgir`
(gic400.cpp lines 439-453) for a given current CPU: the SGI pending bit is
cleared only when no source CPUs remain in `cpendsgir`. -/
def distif.write_cpendsgir (s : Gic) (value idx cpu : Nat) : Gic :=
  let mask := 1 <<< cpu
  let t := distif.set_sgi_pending s value idx cpu false
  let t :=
    if t.cpendsgir cpu idx = 0 then set_irq_pending t idx false mask else t
  gic_update false t

/-- Plain banked store to `distif.ipriority_sgi` (u8, no write handler in
the source register file). -/
def distif.write_ipriority_sgi (s : Gic) (cpu irq val : Nat) : Gic :=
  { s with ipriority_sgi := upd2 s.ipriority_sgi cpu irq (val &&& 0xff) }

/-- Plain banked store to `distif.ipriority_ppi` (u8). -/
def distif.write_ipriority_ppi (s : Gic) (cpu idx val : Nat) : Gic :=
  { s with ipriority_ppi := upd2 s.ipriority_ppi cpu idx (val &&& 0xff) }

/-- Plain shared store to `distif.ipriority_spi` (u8). -/
def distif.write_ipriority_spi (s : Gic) (idx val : Nat) : Gic :=
  { s with ipriority_spi := Function.update s.ipriority_spi idx (val &&& 0xff) }

/-- Plain shared store to `distif.itargets_spi` (u8 CPU mask). -/
def distif.write_itargets_spi (s : Gic) (idx val : Nat) : Gic :=
  { s with itargets_spi := Function.update s.itargets_spi idx (val &&& 0xff) }

/- ----------------------------------------------------------------- -/
/- CPU interface operations (gic400.cpp cpuif)                       -/
/- ----------------------------------------------------------------- -/

/-- Embedding of `gic400::cpuif::set_current_irq` (gic400.cpp lines
642-651): store the running IRQ, set `RPR` to its priority (or
`IDLE_PRIO` for the spurious sentinel) and update the distributor. -/
def cpuif.set_current_irq (s : Gic) (cpu irq : Nat) : Gic :=
  let t := { s with curr_irq := Function.update s.curr_irq cpu irq }
  let t := { t with
    rpr := Function.update t.rpr cpu
      (if irq = SPURIOUS_IRQ then 0x100 else get_irq_priority t cpu irq) }
  gic_update false t

/-- Embedding of `gic400::cpuif::write_ctlr` (gic400.cpp lines 653-659).
Modelled from the spec: the missing header's `CTLR_ENABLE()` mask is the
single enable bit of the banked CPU-interface control register. -/
def cpuif.write_ctlr (s : Gic) (val cpu : Nat) : Gic :=
  { s with cpu_ctlr := Function.update s.cpu_ctlr cpu (val &&& 1) }

/-- Embedding of `gic400::cpuif::write_pmr` (gic400.cpp lines 661-663):
only the first 8 bits are kept. -/
def cpuif.write_pmr (s : Gic) (val cpu : Nat) : Gic :=
  { s with pmr := Function.update s.pmr cpu (val &&& 0xff) }

/-- Embedding of `gic400::cpuif::write_bpr` (gic400.cpp lines 665-668):
keep only the first 3 bits and store the same value in `ABPR` and `BPR`. -/
def cpuif.write_bpr (s : Gic) (val cpu : Nat) : Gic :=
  let t := { s with abpr := Function.update s.abpr cpu (val &&& 0x7) }
  { t with bpr := Function.update t.bpr cpu (t.abpr cpu) }

/-- The out-of-order walk of `gic400::cpuif::write_eoir`
(gic400.cpp lines 694-704) over one CPU's `prev_irq` column: follow the
chain from the running IRQ and splice out the first link equal to `irq`.
The C++ `while` loop is bounded here by a fuel argument larger than any
chain of distinct IRQs. -/
def unlinkAux (prevc : Nat → Nat) (irq : Nat) (fuel iter : Nat) : Nat → Nat :=
  match fuel with
  | 0 => prevc
  | fuel + 1 =>
    if prevc iter = SPURIOUS_IRQ then prevc
    else if prevc iter = irq then Function.update prevc iter (prevc irq)
    else unlinkAux prevc irq fuel (prevc iter)

/-- Embedding of `gic400::cpuif::write_eoir` (gic400.cpp lines 670-704)
for a given current CPU: drop silently without a running IRQ, ignore
out-of-range ids, pop the preemption stack for the running IRQ (clearing
its active bit), and splice a non-running IRQ out of the chain without
touching any active bit. -/
def cpuif.write_eoir (s : Gic) (val cpu : Nat) : Gic :=
  if s.curr_irq cpu = SPURIOUS_IRQ then s
  else
    let irq := val &&& 0x3ff
    if s.irq_num ≤ irq then s
    else if irq = s.curr_irq cpu then
      let t := cpuif.set_current_irq s cpu (s.prev_irq irq cpu)
      let t := set_irq_active t irq false (1 <<< cpu)
      gic_update false t
    else
      let prevc2 := unlinkAux (fun i => s.prev_irq i cpu) irq (NIRQ + 1) (s.curr_irq cpu)
      { s with prev_irq := fun i c => if c = cpu then prevc2 i else s.prev_irq i c }

/-- Embedding of `gic400::cpuif::read_iar` (gic400.cpp lines 706-748) for
a given current CPU, returning the acknowledged value and the new state.
A spurious winner or a winner whose priority does not beat `RPR` returns
`SPURIOUS_IRQ` without state change.  For SGIs one source CPU is popped
(lowest set bit of `spendsgir`) and embedded in bits 12-10; the source
asserts `src_cpu <= 8`, which only fails in states the claims exclude
(`spendsgir = 0`). -/
def cpuif.read_iar (s : Gic) (cpu : Nat) : Nat × Gic :=
  let irq := s.hppir cpu
  let cpu_mask := if get_irq_model s irq = IrqModel.N_1 then ALL_CPU else 1 <<< cpu
  if irq = SPURIOUS_IRQ ∨ s.rpr cpu ≤ get_irq_priority s cpu irq then
    (SPURIOUS_IRQ, s)
  else
    let ti :=
      if irq < NSGI then
        let pend := s.spendsgir cpu irq
        let src_cpu := ctz pend
        let t := distif.set_sgi_pending s (1 <<< src_cpu) irq cpu false
        let t :=
          if t.spendsgir cpu irq = 0 then set_irq_pending t irq false cpu_mask
          else t
        (t, ((src_cpu &&& 0x7) <<< 10) ||| irq)
      else
        (set_irq_pending s irq false cpu_mask, irq)
    let t := ti.1
    let iarv := ti.2
    let t := { t with iar_reg := Function.update t.iar_reg cpu iarv }
    let t := { t with prev_irq := upd2 t.prev_irq irq cpu (t.curr_irq cpu) }
    let t := cpuif.set_current_irq t cpu irq
    let t := set_irq_active t irq true cpu_mask
    let t := set_irq_signaled t irq true cpu_mask
    (iarv, t)

/- ----------------------------------------------------------------- -/
/- Virtual interface operations (gic400.cpp vifctrl / vcpuif)        -/
/- ----------------------------------------------------------------- -/

/-- Modelled from the spec: `vifctrl::set_lr_pending` of the missing
header stores into `m_lr_state[cpu][idx].pending`. -/
def vifctrl.set_lr_pending (s : Gic) (idx cpu : Nat) (b : Bool) : Gic :=
  { s with lr_state := upd2 s.lr_state cpu idx { s.lr_state cpu idx with pending := b } }

/-- Modelled from the spec: `vifctrl::set_lr_active`. -/
def vifctrl.set_lr_active (s : Gic) (idx cpu : Nat) (b : Bool) : Gic :=
  { s with lr_state := upd2 s.lr_state cpu idx { s.lr_state cpu idx with active := b } }

/-- Modelled from the spec: `vifctrl::set_lr_hw`. -/
def vifctrl.set_lr_hw (s : Gic) (idx cpu : Nat) (b : Bool) : Gic :=
  { s with lr_state := upd2 s.lr_state cpu idx { s.lr_state cpu idx with hw := b } }

/-- Modelled from the spec: `vifctrl::set_lr_prio`. -/
def vifctrl.set_lr_prio (s : Gic) (idx cpu p : Nat) : Gic :=
  { s with lr_state := upd2 s.lr_state cpu idx { s.lr_state cpu idx with prio := p } }

/-- Modelled from the spec: `vifctrl::set_lr_vid`. -/
def vifctrl.set_lr_vid (s : Gic) (idx cpu v : Nat) : Gic :=
  { s with lr_state := upd2 s.lr_state cpu idx { s.lr_state cpu idx with virtual_id := v } }

/-- Modelled from the spec: `vifctrl::set_lr_physid`. -/
def vifctrl.set_lr_physid (s : Gic) (idx cpu p : Nat) : Gic :=
  { s with lr_state := upd2 s.lr_state cpu idx { s.lr_state cpu idx with physical_id := p } }

/-- Modelled from the spec: `vifctrl::set_lr_cpuid`. -/
def vifctrl.set_lr_cpuid (s : Gic) (idx cpu c : Nat) : Gic :=
  { s with lr_state := upd2 s.lr_state cpu idx { s.lr_state cpu idx with cpu_id := c } }

/-- Embedding of `gic400::vifctrl::get_irq_priority`
(gic400.cpp lines 931-941): priority of the first list register of the
CPU whose virtual id matches and which is active or pending; 0 after an
error log when none matches. -/
def vifctrl.get_irq_priority (s : Gic) (cpu irq : Nat) : Nat :=
  match (List.range NLR).find? (fun i =>
      decide ((s.lr_state cpu i).virtual_id = irq) &&
      ((s.lr_state cpu i).active || (s.lr_state cpu i).pending)) with
  | some i => (s.lr_state cpu i).prio
  | none => 0

/-- Embedding of `gic400::vifctrl::get_lr` (gic400.cpp lines 943-953):
index of the first matching active-or-pending list register; 0 after an
error log when none matches. -/
def vifctrl.get_lr (s : Gic) (irq cpu : Nat) : Nat :=
  match (List.range NLR).find? (fun i =>
      decide ((s.lr_state cpu i).virtual_id = irq) &&
      ((s.lr_state cpu i).active || (s.lr_state cpu i).pending)) with
  | some i => i
  | none => 0

/-- Embedding of `gic400::vifctrl::write_hcr` (gic400.cpp lines 837-840). -/
def vifctrl.write_hcr (s : Gic) (val cpu : Nat) : Gic :=
  gic_update true { s with hcr := Function.update s.hcr cpu val }

/-- Embedding of `gic400::vifctrl::write_lr` (gic400.cpp lines 846-883)
for a given current CPU: decode hw bit, state bits, priority, virtual id
and either source-CPU id (`hw = 0`) or physical id (`hw = 1`), update the
decoded list-register state and the raw register, then update. -/
def vifctrl.write_lr (s : Gic) (val idx cpu : Nat) : Gic :=
  let state := (val >>> 28) &&& 0b11
  let hw := (val >>> 31) &&& 0b1
  let t :=
    if hw = 0 then
      let cpu_id := (val >>> 10) &&& 0b111
      let t := vifctrl.set_lr_cpuid s idx cpu cpu_id
      let t := vifctrl.set_lr_hw t idx cpu false
      vifctrl.set_lr_physid t idx cpu 0
    else
      let t := vifctrl.set_lr_cpuid s idx cpu 0
      let t := vifctrl.set_lr_hw t idx cpu true
      vifctrl.set_lr_physid t idx cpu ((val >>> 10) &&& 0x1ff)
  let t := if state &&& 1 ≠ 0 then vifctrl.set_lr_pending t idx cpu true else t
  let t := if state &&& 2 ≠ 0 then vifctrl.set_lr_active t idx cpu true else t
  let t :=
    if state = 0 then
      vifctrl.set_lr_active (vifctrl.set_lr_pending t idx cpu false) idx cpu false
    else t
  let t := vifctrl.set_lr_prio t idx cpu ((val >>> 23) &&& 0x1f)
  let t := vifctrl.set_lr_vid t idx cpu (val &&& 0x1ff)
  let t := { t with lr := upd2 t.lr cpu idx val }
  gic_update true t

/-- Embedding of `gic400::vifctrl::write_apr` (gic400.cpp lines 922-929);
the local `prio` variable is a u8, so the `IDLE_PRIO` default truncates
to 0 exactly as in the source. -/
def vifctrl.write_apr (s : Gic) (val cpu : Nat) : Gic :=
  let prio := (if val ≠ 0 then fls val <<< (VIRT_MIN_BPR + 1) else IDLE_PRIO) &&& 0xff
  let t := { s with v_rpr := Function.update s.v_rpr cpu prio }
  { t with vapr := Function.update t.vapr cpu val }

/-- Embedding of `gic400::vcpuif::write_ctlr` (gic400.cpp lines 990-994). -/
def vcpuif.write_ctlr (s : Gic) (val cpu : Nat) : Gic :=
  { s with v_ctlr := Function.update s.v_ctlr cpu val }

/-- Embedding of `gic400::vcpuif::write_bpr` (gic400.cpp lines 996-998). -/
def vcpuif.write_bpr (s : Gic) (val cpu : Nat) : Gic :=
  { s with v_bpr := Function.update s.v_bpr cpu (max (val &&& 0x07) VIRT_MIN_BPR) }

/-- Embedding of `gic400::vcpuif::read_iar` (gic400.cpp lines 1000-1024)
for a given current CPU: acknowledge the virtual HPPIR winner, raise its
preemption level in `APR`, mark the list register active and not pending,
and return the virtual id with the source-CPU field of the list
register.  The source applies the (literal) mask `0x111` to the cpu id. -/
def vcpuif.read_iar (s : Gic) (cpu : Nat) : Nat × Gic :=
  let irq := s.v_hppir cpu
  if irq = SPURIOUS_IRQ ∨ s.v_rpr cpu ≤ vifctrl.get_irq_priority s cpu irq then
    (SPURIOUS_IRQ, s)
  else
    let prio := vifctrl.get_irq_priority s cpu irq <<< 3
    let mask := ((2 ^ 64 - 1) <<< ((s.v_bpr cpu &&& 0x07) + 1)) % 2 ^ 64
    let t := { s with v_rpr := Function.update s.v_rpr cpu (prio &&& mask) }
    let preemptlvl := prio >>> (VIRT_MIN_BPR + 1)
    let bitno := preemptlvl % 32
    let t := { t with vapr := Function.update t.vapr cpu (t.vapr cpu ||| (1 <<< bitno)) }
    let lri := vifctrl.get_lr t irq cpu
    let t := vifctrl.set_lr_active t lri cpu true
    let t := vifctrl.set_lr_pending t lri cpu false
    let t := gic_update true t
    let cpu_id := (t.lr_state cpu lri).cpu_id
    (((cpu_id &&& 0x111) <<< 10) ||| irq, t)

/-- Embedding of `gic400::vcpuif::write_eoir` (gic400.cpp lines 1026-1061)
for a given current CPU: ignore out-of-range ids; otherwise drop the
priority (`apr &= apr - 1`, recompute `RPR` from the highest remaining
`APR` bit or `IDLE_PRIO`), deactivate the matching list register, and for
a hardware list register also deactivate the physical IRQ in the
distributor.  Nat subtraction agrees with the u32 wraparound of
`apr - 1` here because `0 &&& x = 0` either way. -/
def vcpuif.write_eoir (s : Gic) (val cpu : Nat) : Gic :=
  let irq := val &&& 0x1ff
  if s.irq_num ≤ irq then s
  else
    let t := { s with vapr := Function.update s.vapr cpu (s.vapr cpu &&& (s.vapr cpu - 1)) }
    let apr := t.vapr cpu
    let t := { t with
      v_rpr := Function.update t.v_rpr cpu
        (if apr ≠ 0 then fls apr <<< (VIRT_MIN_BPR + 1) else IDLE_PRIO) }
    let lri := vifctrl.get_lr t irq cpu
    let t := vifctrl.set_lr_active t lri cpu false
    let t :=
      if (t.lr_state cpu lri).hw then
        let physid := (t.lr_state cpu lri).physical_id
        if ¬(physid < NSGI ∨ NIRQ < physid) then
          set_irq_active t physid false (1 <<< cpu)
        else t
      else t
    let t := gic_update true t
    { t with v_eoir := Function.update t.v_eoir cpu val }

/- ----------------------------------------------------------------- -/
/- Interrupt inputs and reset                                        -/
/- ----------------------------------------------------------------- -/

/-- Embedding of `gic400::handle_ppi` (gic400.cpp lines 1305-1315). -/
def gic400.handle_ppi (s : Gic) (cpu idx : Nat) (st : Bool) : Gic :=
  let irq := NSGI + idx
  let mask := 1 <<< cpu
  let t := set_irq_level s irq st mask
  let t := set_irq_signaled t irq false ALL_CPU
  let t :=
    if decide (t.trigger irq = Trigger.EDGE) && st then
      set_irq_pending t irq true mask
    else t
  gic_update false t

/-- Embedding of `gic400::handle_spi` (gic400.cpp lines 1317-1327); the
target mask is read from `itargets_spi` before any state change. -/
def gic400.handle_spi (s : Gic) (idx : Nat) (st : Bool) : Gic :=
  let irq := NPRIV + idx
  let target_cpu := s.itargets_spi idx
  let t := set_irq_level s irq st ALL_CPU
  let t := set_irq_signaled t irq false ALL_CPU
  let t :=
    if decide (t.trigger irq = Trigger.EDGE) && st then
      set_irq_pending t irq true target_cpu
    else t
  gic_update false t

/-- Reset state of the whole model: constructor defaults and `reset()`
methods of gic400.cpp (lines 20-29, 455-486, 618-640, 750-835, 955-984,
1063-1114), with `m_cpu_num`/`m_irq_num` as fixed by elaboration
(lines 1264-1283).  `end_of_elaboration` enables all SGIs for all CPUs. -/
def resetGic (cn inum : Nat) : Gic :=
  { cpu_num := cn, irq_num := inum, dist_ctlr := 0,
    enabled := fun irq => if irq < NSGI then ALL_CPU else 0,
    pending := fun _ => 0, active := fun _ => 0, level := fun _ => 0,
    signaled := fun _ => 0,
    trigger := fun _ => Trigger.EDGE, model := fun _ => IrqModel.N_N,
    ipriority_sgi := fun _ _ => 0, ipriority_ppi := fun _ _ => 0,
    ipriority_spi := fun _ => 0, itargets_spi := fun _ => 0,
    spendsgir := fun _ _ => 0, cpendsgir := fun _ _ => 0,
    cpu_ctlr := fun _ => 0, pmr := fun _ => 0, bpr := fun _ => 0,
    abpr := fun _ => 0, rpr := fun _ => IDLE_PRIO,
    hppir := fun _ => SPURIOUS_IRQ, iar_reg := fun _ => 0,
    curr_irq := fun _ => SPURIOUS_IRQ,
    prev_irq := fun _ _ => SPURIOUS_IRQ,
    irq_out := fun _ => false,
    hcr := fun _ => 0, vapr := fun _ => 0, lr := fun _ _ => 0,
    lr_state := fun _ _ => list_entry.init,
    v_ctlr := fun _ => 0, v_pmr := fun _ => 0, v_bpr := fun _ => 2,
    v_rpr := fun _ => IDLE_PRIO, v_hppir := fun _ => SPURIOUS_IRQ,
    v_eoir := fun _ => 0, virq_out := fun _ => false }

/-- GIC states reachable through the modelled register interface and
interrupt inputs, starting from reset. -/
inductive Reachable : Gic → Prop where
  | reset (cn inum : Nat) : cn ≤ NCPU → NPRIV ≤ inum → inum ≤ NIRQ →
      Reachable (resetGic cn inum)
  | dist_write_ctlr {s} (val : Nat) :
      Reachable s → Reachable (distif.write_ctlr s val)
  | dist_write_sspr {s} (value idx : Nat) :
      Reachable s → Reachable (distif.write_sspr s value idx)
  | dist_write_ispendr_ppi {s} (value cpu : Nat) :
      Reachable s → Reachable (distif.write_ispendr_ppi s value cpu)
  | dist_write_icpendr_ppi {s} (value cpu : Nat) :
      Reachable s → Reachable (distif.write_icpendr_ppi s value cpu)
  | dist_write_isenabler_spi {s} (val idx : Nat) :
      Reachable s → Reachable (distif.write_isenabler_spi s val idx)
  | dist_write_icenabler_spi {s} (val idx : Nat) :
      Reachable s → Reachable (distif.write_icenabler_spi s val idx)
  | dist_write_icpendr_spi {s} (val idx : Nat) :
      Reachable s → Reachable (distif.write_icpendr_spi s val idx)
  | dist_write_icactiver_spi {s} (val idx : Nat) :
      Reachable s → Reachable (distif.write_icactiver_spi s val idx)
  | dist_write_sgir {s} (value cpu : Nat) :
      Reachable s → Reachable (distif.write_sgir s value cpu)
  | dist_write_spendsgir {s} (value idx cpu : Nat) :
      Reachable s → Reachable (distif.write_spendsgir s value idx cpu)
  | dist_write_cpendsgir {s} (value idx cpu : Nat) :
      Reachable s → Reachable (distif.write_cpendsgir s value idx cpu)
  | dist_write_ipriority_sgi {s} (cpu irq val : Nat) :
      Reachable s → Reachable (distif.write_ipriority_sgi s cpu irq val)
  | dist_write_ipriority_ppi {s} (cpu idx val : Nat) :
      Reachable s → Reachable (distif.write_ipriority_ppi s cpu idx val)
  | dist_write_ipriority_spi {s} (idx val : Nat) :
      Reachable s → Reachable (distif.write_ipriority_spi s idx val)
  | dist_write_itargets_spi {s} (idx val : Nat) :
      Reachable s → Reachable (distif.write_itargets_spi s idx val)
  | cpu_write_ctlr {s} (val cpu : Nat) :
      Reachable s → Reachable (cpuif.write_ctlr s val cpu)
  | cpu_write_pmr {s} (val cpu : Nat) :
      Reachable s → Reachable (cpuif.write_pmr s val cpu)
  | cpu_write_bpr {s} (val cpu : Nat) :
      Reachable s → Reachable (cpuif.write_bpr s val cpu)
  | cpu_write_eoir {s} (val cpu : Nat) :
      Reachable s → Reachable (cpuif.write_eoir s val cpu)
  | cpu_read_iar {s} (cpu : Nat) :
      Reachable s → Reachable (cpuif.read_iar s cpu).2
  | vif_write_hcr {s} (val cpu : Nat) :
      Reachable s → Reachable (vifctrl.write_hcr s val cpu)
  | vif_write_lr {s} (val idx cpu : Nat) :
      Reachable s → Reachable (vifctrl.write_lr s val idx cpu)
  | vif_write_apr {s} (val cpu : Nat) :
      Reachable s → Reachable (vifctrl.write_apr s val cpu)
  | vcpu_write_ctlr {s} (val cpu : Nat) :
      Reachable s → Reachable (vcpuif.write_ctlr s val cpu)
  | vcpu_write_bpr {s} (val cpu : Nat) :
      Reachable s → Reachable (vcpuif.write_bpr s val cpu)
  | vcpu_read_iar {s} (cpu : Nat) :
      Reachable s → Reachable (vcpuif.read_iar s cpu).2
  | vcpu_write_eoir {s} (val cpu : Nat) :
      Reachable s → Reachable (vcpuif.write_eoir s val cpu)
  | handle_ppi {s} (cpu idx : Nat) (st : Bool) :
      Reachable s → Reachable (gic400.handle_ppi s cpu idx st)
  | handle_spi {s} (idx : Nat) (st : Bool) :
      Reachable s → Reachable (gic400.handle_spi s idx st)

/- ----------------------------------------------------------------- -/
/- Derived notions used by the claims                                -/
/- ----------------------------------------------------------------- -/

/-- Delivery candidate of the physical arbitration in `gic400::update`
for one CPU: an implemented IRQ that is enabled, (test-)pending and not
active for this CPU, SPIs additionally filtered by their
`itargets_spi` target mask. -/
def physCand (s : Gic) (cpu irq : Nat) : Bool :=
  decide (irq < s.irq_num) &&
  is_irq_enabled s irq (1 <<< cpu) && test_pending s irq (1 <<< cpu) &&
  !is_irq_active s irq (1 <<< cpu) &&
  (decide (irq < NPRIV) || ((s.itargets_spi (irq - NPRIV) &&& (1 <<< cpu)) != 0))

/-- The physical arbitration of `gic400::update` written as one scan over
all implemented IRQ ids; proved below to agree with the three loops of
`bestPhys`. -/
def genBest (s : Gic) (cpu : Nat) : Nat × Nat :=
  (List.range' 0 s.irq_num).foldl
    (fun b irq =>
      if physCand s cpu irq && decide (get_irq_priority s cpu irq < b.1)
      then (get_irq_priority s cpu irq, irq) else b)
    ( IDLE_PRIO, SPURIOUS_IRQ)

/-- Value left in `HPPIR.bank(cpu)` by one non-virtual `gic400::update`. -/
def hppirVal (s : Gic) (cpu : Nat) : Nat :=
  if s.dist_ctlr = 0 ∨ s.cpu_ctlr cpu = 0 then SPURIOUS_IRQ
  else if (bestPhys s cpu).1 < s.pmr cpu then (bestPhys s cpu).2
  else SPURIOUS_IRQ

/-- Value driven onto `irq_out[cpu]` by one non-virtual `gic400::update`. -/
def irqOutVal (s : Gic) (cpu : Nat) : Bool :=
  if s.dist_ctlr = 0 ∨ s.cpu_ctlr cpu = 0 then false
  else decide ((bestPhys s cpu).1 < s.pmr cpu) &&
       decide ((bestPhys s cpu).1 < s.rpr cpu)

/-- Value left in the virtual `HPPIR.bank(cpu)` by one virtual
`gic400::update`. -/
def vHppirVal (s : Gic) (cpu : Nat) : Nat :=
  if s.hcr cpu = 0 then SPURIOUS_IRQ
  else if (bestVirt s cpu).1 < s.v_pmr cpu then (bestVirt s cpu).2
  else SPURIOUS_IRQ

/-- Walk of one CPU's preemption chain (`m_curr_irq` followed through
`m_prev_irq` links down to the `SPURIOUS_IRQ` sentinel), testing whether
`target` occurs; bounded by fuel larger than any chain of distinct
IRQs. -/
def inChainAux (prevc : Nat → Nat) (target : Nat) : Nat → Nat → Bool
  | 0, _ => false
  | fuel + 1, cur =>
    if cur = SPURIOUS_IRQ then false
    else if cur = target then true
    else inChainAux prevc target fuel (prevc cur)

/-- Membership of `irq` in the preemption chain of `cpu`. -/
def inChain (s : Gic) (cpu irq : Nat) : Bool :=
  inChainAux (fun i => s.prev_irq i cpu) irq (NIRQ + 1) (s.curr_irq cpu)

/-- The invariant of claim C7: every active IRQ appears in some CPU's
preemption chain. -/
def activeImpliesChained (s : Gic) : Prop :=
  ∀ irq < s.irq_num, ∀ cpu < s.cpu_num,
    (s.active irq).testBit cpu = true →
      ∃ c, c < s.cpu_num ∧ inChain s c irq = true

/- ----------------------------------------------------------------- -/
/- Concrete states used by counterexamples and witnesses             -/
/- ----------------------------------------------------------------- -/

/-- Single-CPU state with one delivery candidate (SGI 0, priority 5)
whose priority does not beat the priority mask `PMR = 1`. -/
def c1_state : Gic :=
  { resetGic 1 32 with
    dist_ctlr := 1, cpu_ctlr := fun _ => 1,
    pending := fun irq => if irq = 0 then 1 else 0,
    ipriority_sgi := fun _ irq => if irq = 0 then 5 else 7,
    pmr := fun _ => 1 }

/-- Single-CPU state with one delivery candidate (SGI 0, priority 5)
that beats `PMR = 0x80` and the idle running priority. -/
def c1w_state : Gic :=
  { resetGic 1 32 with
    dist_ctlr := 1, cpu_ctlr := fun _ => 1,
    pending := fun irq => if irq = 0 then 1 else 0,
    ipriority_sgi := fun _ irq => if irq = 0 then 5 else 7,
    pmr := fun _ => 0x80 }

/-- State in which CPU 0's highest-priority pending interrupt is SGI 2,
pending from source CPU 2 only. -/
def c2w_state : Gic :=
  { resetGic 1 32 with
    hppir := fun _ => 2,
    spendsgir := fun c sgi => if c = 0 ∧ sgi = 2 then 4 else 0,
    cpendsgir := fun c sgi => if c = 0 ∧ sgi = 2 then 4 else 0,
    pending := fun irq => if irq = 2 then 1 else 0 }

/-- List-register value of the claim C4 scenario: `hw = 1`,
`state = pending`, `physical_id = 42`, `virtual_id = 10`, priority 0. -/
def c4_lrval : Nat := (1 <<< 31) ||| (1 <<< 28) ||| (42 <<< 10) ||| 10

/-- Single-CPU state ready for virtual-interrupt injection: virtual
interface enabled, virtual priority mask open, all list registers idle. -/
def c4w_state : Gic :=
  { resetGic 1 32 with
    hcr := fun _ => 1,
    v_pmr := fun _ => 0x80,
    active := fun irq => if irq = 42 then 1 else 0 }

/-- Single-CPU state whose virtual active-priority bank holds the two
lowest preemption levels (bits 0 and 1). -/
def c5_state : Gic :=
  { resetGic 1 32 with vapr := fun c => if c = 0 then 3 else 0 }

/-- Single-CPU state used for the amended-claim witness of C5
(`APR = 6`, bits 1 and 2). -/
def c5w_state : Gic :=
  { resetGic 1 32 with vapr := fun c => if c = 0 then 6 else 0 }

/-- Two-CPU state whose SPI target table maps SPI 32 (table entry 0) to
CPU 0 and SPI 64 (table entry 32) to CPU 1. -/
def c6_state : Gic :=
  { resetGic 2 96 with
    itargets_spi := fun j => if j = 0 then 1 else if j = 32 then 2 else 0 }

/-- Claim C7 trace, step 1: enable the distributor on a one-CPU GIC. -/
def c7_s1 : Gic := distif.write_ctlr (resetGic 1 32) 1

/-- Claim C7 trace, step 2: enable CPU 0's interface. -/
def c7_s2 : Gic := cpuif.write_ctlr c7_s1 1 0

/-- Claim C7 trace, step 3: open CPU 0's priority mask. -/
def c7_s3 : Gic := cpuif.write_pmr c7_s2 0xff 0

/-- Claim C7 trace, step 4: give SGI 0 priority 2 on CPU 0. -/
def c7_s4 : Gic := distif.write_ipriority_sgi c7_s3 0 0 2

/-- Claim C7 trace, step 5: give SGI 1 priority 1 on CPU 0. -/
def c7_s5 : Gic := distif.write_ipriority_sgi c7_s4 0 1 1

/-- Claim C7 trace, step 6: CPU 0 sends SGI 0 to itself
(`SGIR` filter `self-only`). -/
def c7_s6 : Gic := distif.write_sgir c7_s5 0x02000000 0

/-- Claim C7 trace, step 7: CPU 0 acknowledges SGI 0. -/
def c7_s7 : Gic := (cpuif.read_iar c7_s6 0).2

/-- Claim C7 trace, step 8: CPU 0 sends SGI 1 to itself. -/
def c7_s8 : Gic := distif.write_sgir c7_s7 0x02000001 0

/-- Claim C7 trace, step 9: CPU 0 acknowledges SGI 1 (preempting SGI 0). -/
def c7_s9 : Gic := (cpuif.read_iar c7_s8 0).2

/-- Claim C7 trace, step 10: CPU 0 ends SGI 0 out of order while SGI 1 is
still running; the EOIR path unlinks SGI 0 from the preemption chain
without clearing its active bit. -/
def c7_state : Gic := cpuif.write_eoir c7_s9 0 0

/-- Single-CPU state in which IRQ 5 is running on CPU 0. -/
def c9w_state : Gic :=
  { resetGic 1 32 with
    curr_irq := fun _ => 5,
    rpr := fun _ => 3,
    active := fun irq => if irq = 5 then 1 else 0 }

/-- Single-CPU state in which IRQ 7 is running on CPU 0 with IRQ 3 below
it on the preemption chain; both are active. -/
def c7w_state : Gic :=
  { resetGic 1 32 with
    curr_irq := fun _ => 7,
    prev_irq := fun i c => if i = 7 ∧ c = 0 then 3 else SPURIOUS_IRQ,
    active := fun irq => if irq = 7 ∨ irq = 3 then 1 else 0,
    rpr := fun _ => 4 }

/-- Empty scatter/gather message. -/
def c3_msg : vq_message :=
  { index := 0, length_in := 0, length_out := 0, in_bufs := [], out_bufs := [] }

/- ----------------------------------------------------------------- -/
/- Bit-level lemmas                                                  -/
/- ----------------------------------------------------------------- -/

theorem testBit_bitClear (x m i : Nat) :
    (bitClear x m).testBit i = (x.testBit i && !(m.testBit i)) := by
  simp only [bitClear, Nat.testBit_xor, Nat.testBit_and]
  cases x.testBit i <;> cases m.testBit i <;> rfl

theorem bitClear_eq_ldiff (x m : Nat) : bitClear x m = Nat.ldiff x m := by
  apply Nat.eq_of_testBit_eq
  intro i
  rw [testBit_bitClear, Nat.testBit_ldiff]

theorem ctzAux_spec :
    ∀ fuel n, 0 < n → n < 2 ^ fuel →
      n.testBit (ctzAux fuel n) = true ∧ ∀ j < ctzAux fuel n, n.testBit j = false := by
  intro fuel
  induction fuel with
  | zero =>
    intro n h1 h2
    simp only [pow_zero] at h2
    omega
  | succ fuel ih =>
    intro n h1 h2
    by_cases h : n % 2 = 1
    · refine ⟨?_, ?_⟩
      · simp [ctzAux, h]
      · intro j hj
        simp [ctzAux, h] at hj
    · have hmod : n % 2 = 0 := by omega
      have h1' : 0 < n / 2 := by omega
      have h2' : n / 2 < 2 ^ fuel := by
        have hp : (2:Nat) ^ (fuel + 1) = 2 ^ fuel * 2 := by ring
        rw [hp] at h2
        omega
      obtain ⟨ha, hb⟩ := ih (n / 2) h1' h2'
      have hc : ctzAux (fuel + 1) n = ctzAux fuel (n / 2) + 1 := by
        simp [ctzAux, h]
      refine ⟨?_, ?_⟩
      · rw [hc, Nat.testBit_add_one]
        exact ha
      · intro j hj
        rw [hc] at hj
        match j with
        | 0 => simp [hmod]
        | j + 1 =>
          rw [Nat.testBit_add_one]
          exact hb j (by omega)

theorem ctz_spec (n : Nat) (h1 : 0 < n) (h2 : n < 2 ^ 64) :
    n.testBit (ctz n) = true ∧ ∀ j < ctz n, n.testBit j = false := by
  have hz : n ≠ 0 := by omega
  simp only [ctz, hz, if_false]
  exact ctzAux_spec 64 n h1 h2

theorem flsAux_spec :
    ∀ fuel n, 0 < n → n < 2 ^ fuel →
      n.testBit (flsAux fuel n) = true ∧ ∀ j, flsAux fuel n < j → n.testBit j = false := by
  intro fuel
  induction fuel with
  | zero =>
    intro n h1 h2
    simp only [pow_zero] at h2
    omega
  | succ fuel ih =>
    intro n h1 h2
    by_cases h : n < 2
    · have hn : n = 1 := by omega
      subst hn
      refine ⟨by simp [flsAux], ?_⟩
      intro j hj
      simp only [flsAux, if_pos (by omega : (1:Nat) < 2)] at hj
      have : (1:Nat) = 2 ^ 0 := by norm_num
      rw [this]
      exact Nat.testBit_two_pow_of_ne (by omega)
    · have h1' : 0 < n / 2 := by omega
      have h2' : n / 2 < 2 ^ fuel := by
        have hp : (2:Nat) ^ (fuel + 1) = 2 ^ fuel * 2 := by ring
        rw [hp] at h2
        omega
      obtain ⟨ha, hb⟩ := ih (n / 2) h1' h2'
      have hc : flsAux (fuel + 1) n = flsAux fuel (n / 2) + 1 := by
        simp [flsAux, h]
      refine ⟨?_, ?_⟩
      · rw [hc, Nat.testBit_add_one]
        exact ha
      · intro j hj
        rw [hc] at hj
        match j with
        | 0 => omega
        | j + 1 =>
          rw [Nat.testBit_add_one]
          exact hb j (by omega)

theorem fls_spec (n : Nat) (h1 : 0 < n) (h2 : n < 2 ^ 64) :
    n.testBit (fls n) = true ∧ ∀ j, fls n < j → n.testBit j = false :=
  flsAux_spec 64 n h1 h2

/-- The classic lowest-set-bit identity: for nonzero `n`, masking with
`n - 1` clears exactly the lowest set bit. -/
theorem and_pred_eq_clear_lowest (n : Nat) (h1 : 0 < n) (h2 : n < 2 ^ 64) :
    n &&& (n - 1) = bitClear n (1 <<< ctz n) := by
  obtain ⟨ht, hlow⟩ := ctz_spec n h1 h2
  set t := ctz n with htdef
  have hmod : n % 2 ^ (t + 1) = 2 ^ t := by
    apply Nat.eq_of_testBit_eq
    intro i
    rw [Nat.testBit_mod_two_pow, Nat.testBit_two_pow]
    rcases Nat.lt_trichotomy i t with hi | hi | hi
    · simp [hlow i hi, Nat.lt_succ_of_lt hi, Nat.ne_of_gt hi]
    · subst hi
      simp [ht]
    · simp [Nat.ne_of_lt hi]
      omega
  have hdecomp : n = 2 ^ (t + 1) * (n / 2 ^ (t + 1)) + 2 ^ t := by
    conv_lhs => rw [← Nat.div_add_mod n (2 ^ (t + 1))]
    rw [hmod]
  have hpred : n - 1 = 2 ^ (t + 1) * (n / 2 ^ (t + 1)) + (2 ^ t - 1) := by
    have hpos : 0 < 2 ^ t := Nat.pos_pow_of_pos t (by omega)
    omega
  have hb1 : 2 ^ t < 2 ^ (t + 1) := by
    exact Nat.pow_lt_pow_right (by omega) (by omega)
  have hb2 : 2 ^ t - 1 < 2 ^ (t + 1) := by omega
  set q := n / 2 ^ (t + 1) with hq
  apply Nat.eq_of_testBit_eq
  intro i
  rw [Nat.testBit_and, testBit_bitClear, Nat.one_shiftLeft, Nat.testBit_two_pow,
    hpred, hdecomp, Nat.testBit_mul_pow_two_add q hb1,
    Nat.testBit_mul_pow_two_add q hb2]
  rcases Nat.lt_trichotomy i t with hi | hi | hi
  · simp [Nat.lt_succ_of_lt hi, Nat.testBit_two_pow, Nat.ne_of_gt hi,
      Nat.testBit_two_pow_sub_one]
  · subst hi
    simp [Nat.testBit_two_pow, Nat.testBit_two_pow_sub_one]
  · have hni : ¬ i < t + 1 := by omega
    simp [hni, Nat.ne_of_lt hi]

/- ----------------------------------------------------------------- -/
/- Frame lemmas for gic400::update                                   -/
/- ----------------------------------------------------------------- -/

/-- Any observation of the state that ignores the four fields written by
`updateCpu` is preserved by the whole update loop. -/
theorem foldl_updateCpu_eq {α : Type} (virt : Bool) (g : Gic → α)
    (hg : ∀ s c, g (updateCpu virt s c) = g s) :
    ∀ (l : List Nat) (s : Gic), g (l.foldl (updateCpu virt) s) = g s := by
  intro l
  induction l with
  | nil => intro s; rfl
  | cons a l ih =>
    intro s
    rw [List.foldl_cons, ih, hg]

theorem gic_update_hppir (s : Gic) (c : Nat) (hc : c < s.cpu_num) :
    (gic_update false s).hppir c = hppirVal s c := by
  unfold gic_update
  revert hc
  generalize s.cpu_num = n
  induction n with
  | zero => intro hc; omega
  | succ n ih =>
    intro hc
    rw [List.range_succ, List.foldl_append, List.foldl_cons, List.foldl_nil]
    by_cases h : c = n
    · subst h
      have hval : hppirVal ((List.range c).foldl (updateCpu false) s) c = hppirVal s c :=
        foldl_updateCpu_eq false (fun u => hppirVal u c) (fun _ _ => rfl) _ s
      rw [← hval]
      generalize (List.range c).foldl (updateCpu false) s = t
      show (hppirNext false t c) c = hppirVal t c
      by_cases hg : t.dist_ctlr = 0 ∨ t.cpu_ctlr c = 0
      · simp [hppirNext, hppirVal, hg]
      · simp [hppirNext, hppirVal, hg]
    · have hstep :
          (updateCpu false ((List.range n).foldl (updateCpu false) s) n).hppir c
            = ((List.range n).foldl (updateCpu false) s).hppir c := by
        generalize (List.range n).foldl (updateCpu false) s = t
        show (hppirNext false t n) c = t.hppir c
        by_cases hg : t.dist_ctlr = 0 ∨ t.cpu_ctlr n = 0
        · simp [hppirNext, hg, Function.update_noteq h]
        · simp [hppirNext, hg, Function.update_noteq h]
      rw [hstep, ih (by omega)]

theorem gic_update_irq_out (s : Gic) (c : Nat) (hc : c < s.cpu_num) :
    (gic_update false s).irq_out c = irqOutVal s c := by
  unfold gic_update
  revert hc
  generalize s.cpu_num = n
  induction n with
  | zero => intro hc; omega
  | succ n ih =>
    intro hc
    rw [List.range_succ, List.foldl_append, List.foldl_cons, List.foldl_nil]
    by_cases h : c = n
    · subst h
      have hval : irqOutVal ((List.range c).foldl (updateCpu false) s) c = irqOutVal s c :=
        foldl_updateCpu_eq false (fun u => irqOutVal u c) (fun _ _ => rfl) _ s
      rw [← hval]
      generalize (List.range c).foldl (updateCpu false) s = t
      show (irqOutNext false t c) c = irqOutVal t c
      by_cases hg : t.dist_ctlr = 0 ∨ t.cpu_ctlr c = 0
      · simp [irqOutNext, irqOutVal, hg]
      · simp [irqOutNext, irqOutVal, hg]
    · have hstep :
          (updateCpu false ((List.range n).foldl (updateCpu false) s) n).irq_out c
            = ((List.range n).foldl (updateCpu false) s).irq_out c := by
        generalize (List.range n).foldl (updateCpu false) s = t
        show (irqOutNext false t n) c = t.irq_out c
        by_cases hg : t.dist_ctlr = 0 ∨ t.cpu_ctlr n = 0
        · simp [irqOutNext, hg, Function.update_noteq h]
        · simp [irqOutNext, hg, Function.update_noteq h]
      rw [hstep, ih (by omega)]

theorem gic_update_v_hppir (s : Gic) (c : Nat) (hc : c < s.cpu_num) :
    (gic_update true s).v_hppir c = vHppirVal s c := by
  unfold gic_update
  revert hc
  generalize s.cpu_num = n
  induction n with
  | zero => intro hc; omega
  | succ n ih =>
    intro hc
    rw [List.range_succ, List.foldl_append, List.foldl_cons, List.foldl_nil]
    by_cases h : c = n
    · subst h
      have hval : vHppirVal ((List.range c).foldl (updateCpu true) s) c = vHppirVal s c :=
        foldl_updateCpu_eq true (fun u => vHppirVal u c) (fun _ _ => rfl) _ s
      rw [← hval]
      generalize (List.range c).foldl (updateCpu true) s = t
      show (vHppirNext true t c) c = vHppirVal t c
      by_cases hg : t.hcr c = 0
      · simp [vHppirNext, vHppirVal, hg]
      · simp [vHppirNext, vHppirVal, hg]
    · have hstep :
          (updateCpu true ((List.range n).foldl (updateCpu true) s) n).v_hppir c
            = ((List.range n).foldl (updateCpu true) s).v_hppir c := by
        generalize (List.range n).foldl (updateCpu true) s = t
        show (vHppirNext true t n) c = t.v_hppir c
        by_cases hg : t.hcr n = 0
        · simp [vHppirNext, hg, Function.update_noteq h]
        · simp [vHppirNext, hg, Function.update_noteq h]
      rw [hstep, ih (by omega)]

theorem gic_update_pending (virt : Bool) (s : Gic) :
    (gic_update virt s).pending = s.pending :=
  foldl_updateCpu_eq virt (fun u => u.pending) (fun _ _ => rfl) _ s

theorem gic_update_active (virt : Bool) (s : Gic) :
    (gic_update virt s).active = s.active :=
  foldl_updateCpu_eq virt (fun u => u.active) (fun _ _ => rfl) _ s

theorem gic_update_enabled (virt : Bool) (s : Gic) :
    (gic_update virt s).enabled = s.enabled :=
  foldl_updateCpu_eq virt (fun u => u.enabled) (fun _ _ => rfl) _ s

theorem gic_update_spendsgir (virt : Bool) (s : Gic) :
    (gic_update virt s).spendsgir = s.spendsgir :=
  foldl_updateCpu_eq virt (fun u => u.spendsgir) (fun _ _ => rfl) _ s

theorem gic_update_cpendsgir (virt : Bool) (s : Gic) :
    (gic_update virt s).cpendsgir = s.cpendsgir :=
  foldl_updateCpu_eq virt (fun u => u.cpendsgir) (fun _ _ => rfl) _ s

theorem gic_update_curr_irq (virt : Bool) (s : Gic) :
    (gic_update virt s).curr_irq = s.curr_irq :=
  foldl_updateCpu_eq virt (fun u => u.curr_irq) (fun _ _ => rfl) _ s

theorem gic_update_prev_irq (virt : Bool) (s : Gic) :
    (gic_update virt s).prev_irq = s.prev_irq :=
  foldl_updateCpu_eq virt (fun u => u.prev_irq) (fun _ _ => rfl) _ s

theorem gic_update_rpr (virt : Bool) (s : Gic) :
    (gic_update virt s).rpr = s.rpr :=
  foldl_updateCpu_eq virt (fun u => u.rpr) (fun _ _ => rfl) _ s

theorem gic_update_vapr (virt : Bool) (s : Gic) :
    (gic_update virt s).vapr = s.vapr :=
  foldl_updateCpu_eq virt (fun u => u.vapr) (fun _ _ => rfl) _ s

theorem gic_update_v_rpr (virt : Bool) (s : Gic) :
    (gic_update virt s).v_rpr = s.v_rpr :=
  foldl_updateCpu_eq virt (fun u => u.v_rpr) (fun _ _ => rfl) _ s

theorem gic_update_lr_state (virt : Bool) (s : Gic) :
    (gic_update virt s).lr_state = s.lr_state :=
  foldl_updateCpu_eq virt (fun u => u.lr_state) (fun _ _ => rfl) _ s

theorem gic_update_lr (virt : Bool) (s : Gic) :
    (gic_update virt s).lr = s.lr :=
  foldl_updateCpu_eq virt (fun u => u.lr) (fun _ _ => rfl) _ s

theorem gic_update_hcr (virt : Bool) (s : Gic) :
    (gic_update virt s).hcr = s.hcr :=
  foldl_updateCpu_eq virt (fun u => u.hcr) (fun _ _ => rfl) _ s

theorem gic_update_v_pmr (virt : Bool) (s : Gic) :
    (gic_update virt s).v_pmr = s.v_pmr :=
  foldl_updateCpu_eq virt (fun u => u.v_pmr) (fun _ _ => rfl) _ s

theorem gic_update_v_bpr (virt : Bool) (s : Gic) :
    (gic_update virt s).v_bpr = s.v_bpr :=
  foldl_updateCpu_eq virt (fun u => u.v_bpr) (fun _ _ => rfl) _ s

theorem gic_update_v_eoir (virt : Bool) (s : Gic) :
    (gic_update virt s).v_eoir = s.v_eoir :=
  foldl_updateCpu_eq virt (fun u => u.v_eoir) (fun _ _ => rfl) _ s

theorem gic_update_irq_num (virt : Bool) (s : Gic) :
    (gic_update virt s).irq_num = s.irq_num :=
  foldl_updateCpu_eq virt (fun u => u.irq_num) (fun _ _ => rfl) _ s

theorem gic_update_cpu_num (virt : Bool) (s : Gic) :
    (gic_update virt s).cpu_num = s.cpu_num :=
  foldl_updateCpu_eq virt (fun u => u.cpu_num) (fun _ _ => rfl) _ s

theorem gic_update_model (virt : Bool) (s : Gic) :
    (gic_update virt s).model = s.model :=
  foldl_updateCpu_eq virt (fun u => u.model) (fun _ _ => rfl) _ s

theorem gic_update_ipriority_sgi (virt : Bool) (s : Gic) :
    (gic_update virt s).ipriority_sgi = s.ipriority_sgi :=
  foldl_updateCpu_eq virt (fun u => u.ipriority_sgi) (fun _ _ => rfl) _ s

/-- The virtual update does not touch the physical `HPPIR` banks. -/
theorem gic_update_virt_hppir (s : Gic) :
    (gic_update true s).hppir = s.hppir :=
  foldl_updateCpu_eq true (fun u => u.hppir) (fun _ _ => rfl) _ s

/- ----------------------------------------------------------------- -/
/- Arg-min characterization of a priority scan                       -/
/- ----------------------------------------------------------------- -/

/-- A left fold that keeps the strictly best (lowest) priority over an
ascending index range computes the priority-then-index lexicographic
minimum of the candidates: either nothing beat the initial value, or the
result is the first candidate with the minimal priority in the range. -/
theorem scan_spec (cand : Nat → Bool) (prio : Nat → Nat) :
    ∀ (n a : Nat) (b : Nat × Nat),
      ((List.range' a n).foldl
          (fun acc irq =>
            if cand irq && decide (prio irq < acc.1) then (prio irq, irq) else acc) b = b
        ∧ ∀ i, a ≤ i → i < a + n → cand i = true → b.1 ≤ prio i)
      ∨ (∃ j, a ≤ j ∧ j < a + n ∧ cand j = true ∧
          (List.range' a n).foldl
            (fun acc irq =>
              if cand irq && decide (prio irq < acc.1) then (prio irq, irq) else acc) b
            = (prio j, j) ∧ prio j < b.1 ∧
          ∀ i, a ≤ i → i < a + n → cand i = true →
            prio j < prio i ∨ (prio j = prio i ∧ j ≤ i)) := by
  intro n
  induction n with
  | zero =>
    intro a b
    left
    refine ⟨rfl, ?_⟩
    intro i h1 h2 _
    omega
  | succ n ih =>
    intro a b
    rw [List.range'_succ, List.foldl_cons]
    by_cases hstep : (cand a && decide (prio a < b.1)) = true
    · obtain ⟨hca, hpa⟩ := Bool.and_eq_true_iff.mp hstep
      have hpa' : prio a < b.1 := of_decide_eq_true hpa
      rw [if_pos hstep]
      rcases ih (a + 1) (prio a, a) with ⟨hr, hbound⟩ | ⟨j, hj1, hj2, hjc, hjr, hjlt, hjmin⟩
      · right
        refine ⟨a, le_refl a, by omega, hca, hr, hpa', ?_⟩
        intro i h1 h2 hci
        by_cases hia : i = a
        · subst hia
          right
          exact ⟨rfl, by omega⟩
        · have := hbound i (by omega) (by omega) hci
          simp only at this
          omega
      · right
        refine ⟨j, by omega, by omega, hjc, hjr, by omega, ?_⟩
        intro i h1 h2 hci
        by_cases hia : i = a
        · subst hia
          left
          simp only at hjlt
          omega
        · exact hjmin i (by omega) (by omega) hci
    · have hor : cand a = false ∨ ¬ prio a < b.1 := by
        by_cases hca : cand a = true
        · right
          intro hlt
          exact hstep (by simp [hca, hlt])
        · left
          exact Bool.not_eq_true (cand a) ▸ hca
      rw [if_neg hstep]
      rcases ih (a + 1) b with ⟨hr, hbound⟩ | ⟨j, hj1, hj2, hjc, hjr, hjlt, hjmin⟩
      · left
        refine ⟨hr, ?_⟩
        intro i h1 h2 hci
        by_cases hia : i = a
        · subst hia
          rcases hor with hf | hnl
          · rw [hci] at hf
            exact absurd hf (by simp)
          · omega
        · exact hbound i (by omega) (by omega) hci
      · right
        refine ⟨j, by omega, by omega, hjc, hjr, hjlt, ?_⟩
        intro i h1 h2 hci
        by_cases hia : i = a
        · subst hia
          rcases hor with hf | hnl
          · rw [hci] at hf
            exact absurd hf (by simp)
          · left
            omega
        · exact hjmin i (by omega) (by omega) hci

theorem sgi_fold_ext (s : Gic) (cpu : Nat) (hlo : NPRIV ≤ s.irq_num) (b : Nat × Nat) :
    (List.range' 0 16).foldl (sgiStep s cpu) b
      = (List.range' 0 16).foldl
          (fun acc irq =>
            if physCand s cpu irq && decide (get_irq_priority s cpu irq < acc.1)
            then (get_irq_priority s cpu irq, irq) else acc) b := by
  have h32 : 32 ≤ s.irq_num := hlo
  apply List.foldl_ext
  intro acc irq hmem
  rw [List.mem_range'] at hmem
  obtain ⟨i, hi, he⟩ := hmem
  have hlt : irq < 16 := by omega
  have hA : irq < NSGI := hlt
  have hB : irq < NPRIV := (by omega : irq < 32)
  have hC : irq < s.irq_num := by omega
  have hq : get_irq_priority s cpu irq = s.ipriority_sgi cpu irq := by
    unfold get_irq_priority
    rw [if_pos hA]
  unfold sgiStep physCand
  rw [hq]
  simp [hB, hC]

theorem ppi_fold_ext (s : Gic) (cpu : Nat) (hlo : NPRIV ≤ s.irq_num) (b : Nat × Nat) :
    (List.range' 16 16).foldl (ppiStep s cpu) b
      = (List.range' 16 16).foldl
          (fun acc irq =>
            if physCand s cpu irq && decide (get_irq_priority s cpu irq < acc.1)
            then (get_irq_priority s cpu irq, irq) else acc) b := by
  have h32 : 32 ≤ s.irq_num := hlo
  apply List.foldl_ext
  intro acc irq hmem
  rw [List.mem_range'] at hmem
  obtain ⟨i, hi, he⟩ := hmem
  have hge : 16 ≤ irq := by omega
  have hlt : irq < 32 := by omega
  have hA : ¬ irq < NSGI := (by omega : ¬ irq < 16)
  have hB : irq < NPRIV := hlt
  have hC : irq < s.irq_num := by omega
  have hq : get_irq_priority s cpu irq = s.ipriority_ppi cpu (irq - NSGI) := by
    unfold get_irq_priority
    rw [if_neg hA, if_pos hB]
  unfold ppiStep physCand
  rw [hq]
  simp [hB, hC]

theorem spi_fold_ext (s : Gic) (cpu : Nat) (hlo : NPRIV ≤ s.irq_num)
    (hub : s.irq_num ≤ NIRQ) (b : Nat × Nat) :
    (List.range' 32 (s.irq_num - 32)).foldl (spiStep s cpu) b
      = (List.range' 32 (s.irq_num - 32)).foldl
          (fun acc irq =>
            if physCand s cpu irq && decide (get_irq_priority s cpu irq < acc.1)
            then (get_irq_priority s cpu irq, irq) else acc) b := by
  have h32 : 32 ≤ s.irq_num := hlo
  have hub' : s.irq_num ≤ 1020 := hub
  apply List.foldl_ext
  intro acc irq hmem
  rw [List.mem_range'] at hmem
  obtain ⟨i, hi, he⟩ := hmem
  have hge : 32 ≤ irq := by omega
  have hlt : irq < s.irq_num := by omega
  have hA : ¬ irq < NSGI := (by omega : ¬ irq < 16)
  have hB : ¬ irq < NPRIV := (by omega : ¬ irq < 32)
  have hN : irq < NIRQ := (by omega : irq < 1020)
  have hq : get_irq_priority s cpu irq = s.ipriority_spi (irq - NPRIV) := by
    unfold get_irq_priority
    rw [if_neg hA, if_neg hB, if_pos hN]
  unfold spiStep physCand
  rw [hq]
  simp [hB, hlt, Bool.and_right_comm]

/-- The three scan loops of `gic400::update` compute the same result as
one scan of `physCand` candidates over all implemented IRQ ids. -/
theorem bestPhys_eq_genBest (s : Gic) (cpu : Nat) (hlo : NPRIV ≤ s.irq_num)
    (hub : s.irq_num ≤ NIRQ) :
    bestPhys s cpu = genBest s cpu := by
  have h32 : 32 ≤ s.irq_num := hlo
  have e12 := List.range'_append_1 0 16 16
  norm_num at e12
  have e3 := List.range'_append_1 0 32 (s.irq_num - 32)
  norm_num at e3
  have hnum : s.irq_num - 32 + 32 = s.irq_num := by omega
  rw [hnum] at e3
  show (List.range' 32 (s.irq_num - 32)).foldl (spiStep s cpu)
      ((List.range' 16 16).foldl (ppiStep s cpu)
        ((List.range' 0 16).foldl (sgiStep s cpu) ( IDLE_PRIO, SPURIOUS_IRQ)))
    = (List.range' 0 s.irq_num).foldl
        (fun acc irq =>
          if physCand s cpu irq && decide (get_irq_priority s cpu irq < acc.1)
          then (get_irq_priority s cpu irq, irq) else acc)
        ( IDLE_PRIO, SPURIOUS_IRQ)
  rw [sgi_fold_ext s cpu hlo, ppi_fold_ext s cpu hlo, spi_fold_ext s cpu hlo hub,
    ← e3, ← e12, List.foldl_append, List.foldl_append]

theorem physCand_lt_irq_num (s : Gic) (cpu i : Nat) (h : physCand s cpu i = true) :
    i < s.irq_num := by
  unfold physCand at h
  simp only [Bool.and_eq_true, decide_eq_true_eq] at h
  exact h.1.1.1.1

theorem get_irq_priority_lt_idle (s : Gic) (cpu i : Nat)
    (hwf : ∀ c j, s.ipriority_sgi c j < IDLE_PRIO ∧
      s.ipriority_ppi c j < IDLE_PRIO ∧ s.ipriority_spi j < IDLE_PRIO) :
    get_irq_priority s cpu i < IDLE_PRIO := by
  unfold get_irq_priority
  split
  · exact (hwf cpu i).1
  split
  · exact (hwf cpu (i - NSGI)).2.1
  split
  · exact (hwf cpu (i - NPRIV)).2.2
  · decide

/-- Claim C1, counterexample: in `c1_state` the only delivery candidate of
CPU 0 is SGI 0 (priority 5), yet after `gic400::update` `HPPIR.bank(0)`
holds `SPURIOUS_IRQ` and not the winner, because the winning priority does
not beat `PMR.bank(0) = 1` — the claim's unconditional "the winner is
reported in HPPIR" is false. -/
theorem gic400_c1_counterexample :
    physCand c1_state 0 0 = true
    ∧ (∀ i < c1_state.irq_num, physCand c1_state 0 i = true → i = 0)
    ∧ c1_state.dist_ctlr ≠ 0 ∧ c1_state.cpu_ctlr 0 ≠ 0
    ∧ (gic_update false c1_state).hppir 0 = SPURIOUS_IRQ
    ∧ SPURIOUS_IRQ ≠ 0 := by
  refine ⟨by decide, by decide, by decide, by decide, by decide, by decide⟩

/-- Claim C1, amended: after a non-virtual `gic400::update`, for a CPU `c`
with the distributor and its CPU interface enabled, the arbitration winner
(the enabled, pending, not-active IRQ — SPIs filtered by their target
mask — with the lowest priority, ties broken by ascending id) is reported
in `HPPIR.bank(c)` only when its priority is lower than `PMR.bank(c)`
(otherwise `HPPIR.bank(c)` is `SPURIOUS_IRQ`), and the IRQ output of `c`
is asserted iff the best priority beats both `PMR.bank(c)` and
`RPR.bank(c)`. -/
theorem gic400_c1_amended (s : Gic) (c : Nat)
    (hc : c < s.cpu_num)
    (hlo : NPRIV ≤ s.irq_num) (hub : s.irq_num ≤ NIRQ)
    (hd : s.dist_ctlr ≠ 0) (he : s.cpu_ctlr c ≠ 0)
    (hwf : ∀ cp j, s.ipriority_sgi cp j < IDLE_PRIO ∧
      s.ipriority_ppi cp j < IDLE_PRIO ∧ s.ipriority_spi j < IDLE_PRIO) :
    ((gic_update false s).hppir c
        = if (bestPhys s c).1 < s.pmr c then (bestPhys s c).2 else SPURIOUS_IRQ)
    ∧ ((gic_update false s).irq_out c
        = (decide ((bestPhys s c).1 < s.pmr c) && decide ((bestPhys s c).1 < s.rpr c)))
    ∧ ((bestPhys s c).2 = SPURIOUS_IRQ → ∀ i, physCand s c i = false)
    ∧ ((bestPhys s c).2 ≠ SPURIOUS_IRQ →
        physCand s c (bestPhys s c).2 = true
        ∧ get_irq_priority s c (bestPhys s c).2 = (bestPhys s c).1
        ∧ ∀ i, physCand s c i = true →
            (bestPhys s c).1 < get_irq_priority s c i
            ∨ ((bestPhys s c).1 = get_irq_priority s c i ∧ (bestPhys s c).2 ≤ i)) := by
  have hub' : s.irq_num ≤ 1020 := hub
  have hgate : ¬ (s.dist_ctlr = 0 ∨ s.cpu_ctlr c = 0) := by simp [hd, he]
  have hbg := bestPhys_eq_genBest s c hlo hub
  have hgb : genBest s c
      = (List.range' 0 s.irq_num).foldl
          (fun acc irq =>
            if physCand s c irq && decide (get_irq_priority s c irq < acc.1)
            then (get_irq_priority s c irq, irq) else acc)
          ( IDLE_PRIO, SPURIOUS_IRQ) := rfl
  have hs := scan_spec (physCand s c) (get_irq_priority s c) s.irq_num 0
    ( IDLE_PRIO, SPURIOUS_IRQ)
  refine ⟨?_, ?_, ?_, ?_⟩
  · rw [gic_update_hppir s c hc]
    unfold hppirVal
    rw [if_neg hgate]
  · rw [gic_update_irq_out s c hc]
    unfold irqOutVal
    rw [if_neg hgate]
  · intro hspur i
    cases hx : physCand s c i with
    | false => rfl
    | true =>
      exfalso
      have hi : i < s.irq_num := physCand_lt_irq_num s c i hx
      rcases hs with ⟨hr, hbound⟩ | ⟨j, hj0, hjn, hjc, hjr, hjlt, hjmin⟩
      · have hle : IDLE_PRIO ≤ get_irq_priority s c i :=
          hbound i (Nat.zero_le i) (by omega) hx
        have hlt := get_irq_priority_lt_idle s c i hwf
        omega
      · have hbj : bestPhys s c = (get_irq_priority s c j, j) := by
          rw [hbg, hgb, hjr]
        rw [hbj] at hspur
        have hj1023 : j = 1023 := hspur
        omega
  · intro hnspur
    rcases hs with ⟨hr, hbound⟩ | ⟨j, hj0, hjn, hjc, hjr, hjlt, hjmin⟩
    · exfalso
      apply hnspur
      rw [hbg, hgb, hr]
    · have hbj : bestPhys s c = (get_irq_priority s c j, j) := by
        rw [hbg, hgb, hjr]
      rw [hbj]
      refine ⟨hjc, rfl, ?_⟩
      intro i hci
      have hi : i < s.irq_num := physCand_lt_irq_num s c i hci
      exact hjmin i (Nat.zero_le i) (by omega) hci

/-- Claim C1, witness: the amended theorem applied to the concrete state
`c1w_state`, whose only candidate (SGI 0, priority 5) beats
`PMR = 0x80` and the idle running priority. -/
theorem gic400_c1_amended_witness :
    (0 < c1w_state.cpu_num ∧ c1w_state.dist_ctlr ≠ 0 ∧ c1w_state.cpu_ctlr 0 ≠ 0)
    ∧ ((gic_update false c1w_state).hppir 0
        = if (bestPhys c1w_state 0).1 < c1w_state.pmr 0 then (bestPhys c1w_state 0).2
          else SPURIOUS_IRQ)
    ∧ ((gic_update false c1w_state).irq_out 0
        = (decide ((bestPhys c1w_state 0).1 < c1w_state.pmr 0) &&
           decide ((bestPhys c1w_state 0).1 < c1w_state.rpr 0))) := by
  have hwf : ∀ cp j, c1w_state.ipriority_sgi cp j < IDLE_PRIO ∧
      c1w_state.ipriority_ppi cp j < IDLE_PRIO ∧
      c1w_state.ipriority_spi j < IDLE_PRIO := by
    intro cp j
    refine ⟨?_, ?_, ?_⟩
    · show (if j = 0 then 5 else 7) < IDLE_PRIO
      split <;> decide
    · show (0 : Nat) < IDLE_PRIO
      decide
    · show (0 : Nat) < IDLE_PRIO
      decide
  have h := gic400_c1_amended c1w_state 0 (by decide) (by decide) (by decide)
    (by decide) (by decide) hwf
  exact ⟨⟨by decide, by decide, by decide⟩, h.1, h.2.1⟩

/-- Claim C10: a write to the physical CPU-interface binary-point register
stores `val & 7` into both the `ABPR` and the `BPR` bank of the writing
CPU, so the two banks alias after every BPR write. -/
theorem cpuif_write_bpr_c10 (s : Gic) (val cpu : Nat) :
    (cpuif.write_bpr s val cpu).bpr cpu = (val &&& 0x7)
    ∧ (cpuif.write_bpr s val cpu).abpr cpu = (val &&& 0x7)
    ∧ (cpuif.write_bpr s val cpu).bpr cpu = (cpuif.write_bpr s val cpu).abpr cpu := by
  unfold cpuif.write_bpr
  simp

/-- Claim C9: an EOIR write by a CPU with a running IRQ whose id field
(bits 9..0) is at least the number of implemented IRQs is ignored: the
whole GIC state is unchanged. -/
theorem cpuif_write_eoir_c9 (s : Gic) (val cpu : Nat)
    (hcurr : s.curr_irq cpu ≠ SPURIOUS_IRQ)
    (hrange : s.irq_num ≤ val &&& 0x3ff) :
    cpuif.write_eoir s val cpu = s := by
  unfold cpuif.write_eoir
  rw [if_neg hcurr, if_pos hrange]

/-- Claim C9, witness: EOIR value 500 on a 32-IRQ GIC with IRQ 5 running
is dropped without any state change. -/
theorem cpuif_write_eoir_c9_witness :
    c9w_state.curr_irq 0 ≠ SPURIOUS_IRQ
    ∧ c9w_state.irq_num ≤ 500 &&& 0x3ff
    ∧ cpuif.write_eoir c9w_state 500 0 = c9w_state :=
  ⟨by decide, by decide, cpuif_write_eoir_c9 c9w_state 500 0 (by decide) (by decide)⟩

/-- Claim C3, evaluation at the failing input `append(0x1000, 16, true)`:
the source puts the WRITE-bit (device-writable) buffer into the `out`
list and bumps `length_out`, leaving `in`/`length_in` untouched — the
opposite of the claim (and of what `do_put`, which completes with
`len = length_in`, needs). -/
theorem vq_message_append_c3 :
    (c3_msg.append 0x1000 16 true).in_bufs = []
    ∧ (c3_msg.append 0x1000 16 true).length_in = 0
    ∧ (c3_msg.append 0x1000 16 true).out_bufs = [⟨0x1000, 16⟩]
    ∧ (c3_msg.append 0x1000 16 true).length_out = 16 :=
  ⟨rfl, rfl, rfl, rfl⟩

/-- Claim C8, counterexample: the packed-ring notification decision is not
total in the driver's event flags — flags value 3 falls into the
`VCML_ERROR` arm (embedded as `none`) instead of returning a decision. -/
theorem vq_event_should_notify_c8_counterexample :
    vq_event.should_notify ⟨0, 3⟩ 0 = none := rfl

/-- Claim C8, amended: the packed-ring notification decision is total for
the three defined flag values `ENABLE = 0`, `DISABLE = 1` and `DESC = 2`
(where notification fires iff the used index equals `off_wrap`); any
other flags value raises a fatal `VCML_ERROR` report. -/
theorem vq_event_should_notify_c8 (e : vq_event) (index : Nat)
    (h : e.flags < 3) :
    (e.should_notify index).isSome = true
    ∧ (e.flags = 0 → e.should_notify index = some true)
    ∧ (e.flags = 1 → e.should_notify index = some false)
    ∧ (e.flags = 2 → e.should_notify index = some (decide (index = e.off_wrap))) := by
  unfold vq_event.should_notify
  have h0 : e.flags = 0 ∨ e.flags = 1 ∨ e.flags = 2 := by omega
  rcases h0 with h0 | h0 | h0 <;> simp [h0]

/-- Claim C8, witness: a descriptor-event suppression structure with
`off_wrap = 7` produces a decision at used index 7. -/
theorem vq_event_should_notify_c8_witness :
    (2 : Nat) < 3 ∧ (vq_event.should_notify ⟨7, 2⟩ 7).isSome = true :=
  ⟨by decide, (vq_event_should_notify_c8 ⟨7, 2⟩ 7 (by decide)).1⟩

/-- Claim C6, evaluation at the failing input: on `ISPENDR` bank 1 with
value 1, SPI 64 becomes pending with CPU mask `itargets_spi[0] = 0x01`
(CPU 0) although SPI 64's own target-table entry `itargets_spi[32]` is
0x02 (CPU 1) — the handler indexes the target table with the bit index
instead of the SPI index, unlike `update` and `handle_spi` in the same
file. -/
theorem distif_write_sspr_c6 :
    c6_state.itargets_spi 32 = 2
    ∧ c6_state.itargets_spi 0 = 1
    ∧ (distif.write_sspr c6_state 1 1).pending 64 = 1 := by
  refine ⟨rfl, rfl, by decide⟩

/-- Claim C5, counterexample: with `APR.bank(0) = 3` a virtual EOIR leaves
`APR = 2`; the mask `apr & (apr - 1)` cleared the lowest set bit (bit 0),
not the highest set bit (bit 1, whose clearing would have produced 1) as
the claim states. -/
theorem vcpuif_write_eoir_c5_counterexample :
    c5_state.vapr 0 = 3
    ∧ (vcpuif.write_eoir c5_state 0 0).vapr 0 = 2
    ∧ bitClear (c5_state.vapr 0) (1 <<< fls (c5_state.vapr 0)) = 1
    ∧ (2 : Nat) ≠ 1 := by
  refine ⟨rfl, by decide, by decide, by decide⟩

/-- Claim C5, amended: a virtual EOIR write with an in-range IRQ id
applies the mask `apr & (apr - 1)` to the CPU's virtual active-priority
bank — which clears the LOWEST set bit, i.e. the preemption level of the
highest-priority active interrupt — and the virtual running priority then
becomes the index of the highest remaining set bit shifted left by
`VIRT_MIN_BPR + 1`, or `IDLE_PRIO` (0x100) when APR has become zero. -/
theorem vcpuif_write_eoir_c5 (s : Gic) (val cpu : Nat)
    (h : val &&& 0x1ff < s.irq_num) (hw32 : s.vapr cpu < 2 ^ 32) :
    ((vcpuif.write_eoir s val cpu).vapr cpu = s.vapr cpu &&& (s.vapr cpu - 1))
    ∧ (s.vapr cpu ≠ 0 →
        (vcpuif.write_eoir s val cpu).vapr cpu
          = bitClear (s.vapr cpu) (1 <<< ctz (s.vapr cpu)))
    ∧ ((vcpuif.write_eoir s val cpu).v_rpr cpu
        = if s.vapr cpu &&& (s.vapr cpu - 1) ≠ 0
          then fls (s.vapr cpu &&& (s.vapr cpu - 1)) <<< (VIRT_MIN_BPR + 1)
          else IDLE_PRIO) := by
  have hnle : ¬ s.irq_num ≤ val &&& 0x1ff := Nat.not_le.mpr h
  have hvapr : (vcpuif.write_eoir s val cpu).vapr cpu
      = s.vapr cpu &&& (s.vapr cpu - 1) := by
    unfold vcpuif.write_eoir
    rw [if_neg hnle]
    simp [gic_update_vapr, set_irq_active, vifctrl.set_lr_active,
      apply_ite (fun u : Gic => u.vapr cpu)]
  refine ⟨hvapr, ?_, ?_⟩
  · intro hz
    rw [hvapr]
    exact and_pred_eq_clear_lowest (s.vapr cpu) (by omega) (by omega)
  · unfold vcpuif.write_eoir
    rw [if_neg hnle]
    simp [gic_update_v_rpr, set_irq_active, vifctrl.set_lr_active,
      apply_ite (fun u : Gic => u.v_rpr cpu)]

/-- Claim C5, witness: the amended theorem at `c5w_state` (`APR = 6`),
where EOIR of virtual IRQ 0 leaves `APR = 4` and `RPR = 2 << 3`. -/
theorem vcpuif_write_eoir_c5_witness :
    ((0 : Nat) &&& 0x1ff < c5w_state.irq_num ∧ c5w_state.vapr 0 < 2 ^ 32)
    ∧ (vcpuif.write_eoir c5w_state 0 0).vapr 0
        = c5w_state.vapr 0 &&& (c5w_state.vapr 0 - 1)
    ∧ (c5w_state.vapr 0 ≠ 0 →
        (vcpuif.write_eoir c5w_state 0 0).vapr 0
          = bitClear (c5w_state.vapr 0) (1 <<< ctz (c5w_state.vapr 0)))
    ∧ ((vcpuif.write_eoir c5w_state 0 0).v_rpr 0
        = if c5w_state.vapr 0 &&& (c5w_state.vapr 0 - 1) ≠ 0
          then fls (c5w_state.vapr 0 &&& (c5w_state.vapr 0 - 1)) <<< (VIRT_MIN_BPR + 1)
          else IDLE_PRIO) := by
  have h := vcpuif_write_eoir_c5 c5w_state 0 0 (by decide) (by decide)
  exact ⟨⟨by decide, by decide⟩, h.1, h.2.1, h.2.2⟩

/-- Claim C2: reading IAR returns `SPURIOUS_IRQ` when `HPPIR.bank(c)` is
spurious or its priority does not beat `RPR.bank(c)`; otherwise, for a
winning SGI with a nonzero source mask, the returned value embeds the
lowest-numbered pending source CPU (the lowest set mask bit) in bits
12-10 above the SGI id, that source bit is removed from
`spendsgir[c][sgi]`, and the SGI pending bit (on the model-dependent CPU
mask) is cleared exactly when no source bits remain afterwards. -/
theorem cpuif_read_iar_c2 (s : Gic) (c irq : Nat) :
    ((s.hppir c = SPURIOUS_IRQ ∨ s.rpr c ≤ get_irq_priority s c (s.hppir c)) →
      (cpuif.read_iar s c).1 = SPURIOUS_IRQ)
    ∧ (s.hppir c = irq → irq < NSGI →
       get_irq_priority s c irq < s.rpr c →
       s.spendsgir c irq ≠ 0 → s.spendsgir c irq < 2 ^ 64 →
       ((cpuif.read_iar s c).1
           = ((ctz (s.spendsgir c irq) &&& 0x7) <<< 10) ||| irq)
       ∧ ((s.spendsgir c irq).testBit (ctz (s.spendsgir c irq)) = true
          ∧ ∀ j < ctz (s.spendsgir c irq), (s.spendsgir c irq).testBit j = false)
       ∧ ((cpuif.read_iar s c).2.spendsgir c irq
           = bitClear (s.spendsgir c irq) (1 <<< ctz (s.spendsgir c irq)))
       ∧ (bitClear (s.spendsgir c irq) (1 <<< ctz (s.spendsgir c irq)) = 0 →
           (cpuif.read_iar s c).2.pending irq
             = bitClear (s.pending irq)
                 (if get_irq_model s irq = IrqModel.N_1 then ALL_CPU else 1 <<< c))
       ∧ (bitClear (s.spendsgir c irq) (1 <<< ctz (s.spendsgir c irq)) ≠ 0 →
           (cpuif.read_iar s c).2.pending irq = s.pending irq)) := by
  constructor
  · intro hsp
    simp only [cpuif.read_iar]
    rw [if_pos hsp]
  · intro h1 h2 h3 h4 h5
    have h2' : irq < 16 := h2
    have hns : ¬ (irq = SPURIOUS_IRQ ∨ s.rpr c ≤ get_irq_priority s c irq) := by
      rintro (hx | hx)
      · have : irq = 1023 := hx
        omega
      · omega
    refine ⟨?_, ctz_spec (s.spendsgir c irq) (by omega) h5, ?_, ?_, ?_⟩
    · unfold cpuif.read_iar
      rw [h1, if_neg hns, if_pos h2]
    · unfold cpuif.read_iar
      rw [h1, if_neg hns, if_pos h2]
      simp [distif.set_sgi_pending, set_irq_pending, set_irq_active,
        set_irq_signaled, cpuif.set_current_irq, gic_update_spendsgir, upd2,
        apply_ite (fun u : Gic => u.spendsgir c irq)]
    · intro hz
      unfold cpuif.read_iar
      rw [h1, if_neg hns, if_pos h2]
      simp [distif.set_sgi_pending, set_irq_pending, set_irq_active,
        set_irq_signaled, cpuif.set_current_irq, gic_update_pending, upd2, hz,
        apply_ite (fun u : Gic => u.pending irq)]
    · intro hz
      unfold cpuif.read_iar
      rw [h1, if_neg hns, if_pos h2]
      simp [distif.set_sgi_pending, set_irq_pending, set_irq_active,
        set_irq_signaled, cpuif.set_current_irq, gic_update_pending, upd2, hz,
        apply_ite (fun u : Gic => u.pending irq)]

/-- Claim C2, witness: the spurious arm at the reset state and the SGI arm
at `c2w_state` (SGI 2 pending from source CPU 2 only, so the returned
value is `(2 << 10) | 2` and the mask empties). -/
theorem cpuif_read_iar_c2_witness :
    ((resetGic 1 32).hppir 0 = SPURIOUS_IRQ
      ∧ (cpuif.read_iar (resetGic 1 32) 0).1 = SPURIOUS_IRQ)
    ∧ (c2w_state.hppir 0 = 2 ∧ (2 : Nat) < NSGI
      ∧ get_irq_priority c2w_state 0 2 < c2w_state.rpr 0
      ∧ c2w_state.spendsgir 0 2 ≠ 0
      ∧ (cpuif.read_iar c2w_state 0).1
          = ((ctz (c2w_state.spendsgir 0 2) &&& 0x7) <<< 10) ||| 2
      ∧ (cpuif.read_iar c2w_state 0).2.spendsgir 0 2
          = bitClear (c2w_state.spendsgir 0 2) (1 <<< ctz (c2w_state.spendsgir 0 2))) := by
  have ha := (cpuif_read_iar_c2 (resetGic 1 32) 0 0).1 (Or.inl rfl)
  have hb := (cpuif_read_iar_c2 c2w_state 0 2).2 rfl (by decide) (by decide)
    (by decide) (by decide)
  exact ⟨⟨rfl, ha⟩, rfl, by decide, by decide, by decide, hb.1, hb.2.2.1⟩
/-- Claim C7, counterexample: a reachable state (CPU 0 acknowledges SGI 0,
is preempted by SGI 1, then ends SGI 0 out of order) in which SGI 0 is
still active for CPU 0 but appears in no CPU's preemption chain — the
out-of-order EOIR path unlinks without deactivating, so the claimed
invariant fails. -/
theorem gic400_c7_counterexample :
    Reachable c7_state ∧ ¬ activeImpliesChained c7_state := by
  constructor
  · exact Reachable.cpu_write_eoir 0 0
      (Reachable.cpu_read_iar 0
        (Reachable.dist_write_sgir 0x02000001 0
          (Reachable.cpu_read_iar 0
            (Reachable.dist_write_sgir 0x02000000 0
              (Reachable.dist_write_ipriority_sgi 0 1 1
                (Reachable.dist_write_ipriority_sgi 0 0 2
                  (Reachable.cpu_write_pmr 0xff 0
                    (Reachable.cpu_write_ctlr 1 0
                      (Reachable.dist_write_ctlr 1
                        (Reachable.reset 1 32 (by decide) (by decide) (by decide)))))))))))
  · unfold activeImpliesChained
    decide

/-- Claim C7, amended: the invariant does not survive the out-of-order
EOIR path — ending a non-running IRQ that sits directly below the running
IRQ splices it out of the preemption chain (rewriting one `prev_irq`
link) while leaving every active bit, the running IRQ and all other chain
links unchanged, so an IRQ ended out of order can stay active without
appearing in any CPU's chain. -/
theorem cpuif_write_eoir_c7_unlink (s : Gic) (val cpu : Nat)
    (hcurr : s.curr_irq cpu ≠ SPURIOUS_IRQ)
    (hrange : val &&& 0x3ff < s.irq_num)
    (hub : s.irq_num ≤ NIRQ)
    (hne : ¬ val &&& 0x3ff = s.curr_irq cpu)
    (hprev : s.prev_irq (s.curr_irq cpu) cpu = val &&& 0x3ff) :
    ((cpuif.write_eoir s val cpu).active = s.active)
    ∧ ((cpuif.write_eoir s val cpu).curr_irq = s.curr_irq)
    ∧ ((cpuif.write_eoir s val cpu).prev_irq (s.curr_irq cpu) cpu
        = s.prev_irq (val &&& 0x3ff) cpu)
    ∧ (∀ i c2, ¬ (c2 = cpu ∧ i = s.curr_irq cpu) →
        (cpuif.write_eoir s val cpu).prev_irq i c2 = s.prev_irq i c2) := by
  have hub' : s.irq_num ≤ 1020 := hub
  have hnle : ¬ s.irq_num ≤ val &&& 0x3ff := Nat.not_le.mpr hrange
  have hne' : ¬ s.prev_irq (s.curr_irq cpu) cpu = SPURIOUS_IRQ := by
    rw [hprev]
    intro hx
    have : val &&& 0x3ff = 1023 := hx
    omega
  have hshape : cpuif.write_eoir s val cpu
      = { s with prev_irq := fun i c2 =>
            if c2 = cpu then (Function.update (fun i2 => s.prev_irq i2 cpu) (s.curr_irq cpu) (s.prev_irq (val &&& 0x3ff) cpu)) i else s.prev_irq i c2 } := by
    unfold cpuif.write_eoir
    rw [if_neg hcurr, if_neg hnle, if_neg hne]
    have hfu : unlinkAux (fun i => s.prev_irq i cpu) (val &&& 0x3ff) (NIRQ + 1)
          (s.curr_irq cpu)
        = Function.update (fun i2 => s.prev_irq i2 cpu) (s.curr_irq cpu)
            (s.prev_irq (val &&& 0x3ff) cpu) := by
      show unlinkAux (fun i => s.prev_irq i cpu) (val &&& 0x3ff) (1020 + 1)
          (s.curr_irq cpu) = _
      rw [unlinkAux]
      rw [if_neg hne', if_pos hprev]
    rw [hfu]
  rw [hshape]
  refine ⟨rfl, rfl, ?_, ?_⟩
  · simp [Function.update_same]
  · intro i c2 hno
    by_cases hc : c2 = cpu
    · subst hc
      have hi : ¬ i = s.curr_irq c2 := fun hx => hno ⟨rfl, hx⟩
      simp [Function.update_noteq hi]
    · simp [hc]

/-- Claim C7, witness: the amended theorem at `c7w_state` (IRQ 7 running,
IRQ 3 below it, both active): EOIR of 3 keeps both active bits and
splices 3 out of the chain. -/
theorem cpuif_write_eoir_c7_unlink_witness :
    (c7w_state.curr_irq 0 ≠ SPURIOUS_IRQ
      ∧ (3 : Nat) &&& 0x3ff < c7w_state.irq_num
      ∧ ¬ (3 : Nat) &&& 0x3ff = c7w_state.curr_irq 0
      ∧ c7w_state.prev_irq (c7w_state.curr_irq 0) 0 = 3 &&& 0x3ff)
    ∧ (cpuif.write_eoir c7w_state 3 0).active = c7w_state.active
    ∧ (cpuif.write_eoir c7w_state 3 0).prev_irq (c7w_state.curr_irq 0) 0
        = c7w_state.prev_irq (3 &&& 0x3ff) 0 := by
  have h := cpuif_write_eoir_c7_unlink c7w_state 3 0 (by decide) (by decide)
    (by decide) (by decide) (by decide)
  exact ⟨⟨by decide, by decide, by decide, by decide⟩, h.1, h.2.2.1⟩

/- ----------------------------------------------------------------- -/
/- Scans over the list-register table                                -/
/- ----------------------------------------------------------------- -/

theorem foldl_fix_range {α : Type} (f : α → Nat → α) :
    ∀ n, (∀ acc j, j < n → f acc j = acc) → ∀ b, (List.range n).foldl f b = b := by
  intro n
  induction n with
  | zero => intro _ b; rfl
  | succ n ih =>
    intro hf b
    rw [List.range_succ, List.foldl_append,
      ih (fun acc j hj => hf acc j (by omega)) b,
      List.foldl_cons, List.foldl_nil, hf b n (by omega)]

/-- A fold whose step fixes the accumulator everywhere except at one index
reduces to the single step at that index. -/
theorem foldl_single_range {α : Type} (f : α → Nat → α) :
    ∀ n idx, idx < n → (∀ acc j, j < n → j ≠ idx → f acc j = acc) →
      ∀ b, (List.range n).foldl f b = f b idx := by
  intro n
  induction n with
  | zero => intro idx h; omega
  | succ n ih =>
    intro idx hidx hf b
    rw [List.range_succ, List.foldl_append, List.foldl_cons, List.foldl_nil]
    by_cases h : idx = n
    · subst h
      rw [foldl_fix_range f idx (fun acc j hj => hf acc j (by omega) (by omega)) b]
    · rw [ih idx (by omega) (fun acc j hj hne => hf acc j (by omega) hne) b,
        hf (f b idx) n (by omega) (fun hx => h hx.symm)]

/-- A search over `range n` whose predicate holds at exactly one index
finds that index. -/
theorem find_range_unique (p : Nat → Bool) (idx : Nat) (hp : p idx = true) :
    ∀ n, idx < n → (∀ j, j < n → j ≠ idx → p j = false) →
      (List.range n).find? p = some idx := by
  intro n
  induction n with
  | zero => intro h; omega
  | succ n ih =>
    intro hidx ho
    rw [List.range_succ, List.find?_append]
    by_cases h : idx = n
    · subst h
      have hnone : (List.range idx).find? p = none := by
        rw [List.find?_eq_none]
        intro x hx
        rw [List.mem_range] at hx
        simp [ho x (by omega) (by omega)]
      rw [hnone]
      simp [List.find?, hp]
    · rw [ih (by omega) (fun j hj hne => ho j (by omega) hne)]
      rfl

/- ----------------------------------------------------------------- -/
/- Frame lemmas for vifctrl::write_lr                                -/
/- ----------------------------------------------------------------- -/

theorem write_lr_cpu_num (s : Gic) (val idx c : Nat) :
    (vifctrl.write_lr s val idx c).cpu_num = s.cpu_num := by
  simp [vifctrl.write_lr, vifctrl.set_lr_cpuid, vifctrl.set_lr_hw,
    vifctrl.set_lr_physid, vifctrl.set_lr_pending, vifctrl.set_lr_active,
    vifctrl.set_lr_prio, vifctrl.set_lr_vid, gic_update_cpu_num,
    apply_ite (fun u : Gic => u.cpu_num)]

theorem write_lr_hcr (s : Gic) (val idx c : Nat) :
    (vifctrl.write_lr s val idx c).hcr = s.hcr := by
  simp [vifctrl.write_lr, vifctrl.set_lr_cpuid, vifctrl.set_lr_hw,
    vifctrl.set_lr_physid, vifctrl.set_lr_pending, vifctrl.set_lr_active,
    vifctrl.set_lr_prio, vifctrl.set_lr_vid, gic_update_hcr,
    apply_ite (fun u : Gic => u.hcr)]

theorem write_lr_v_pmr (s : Gic) (val idx c : Nat) :
    (vifctrl.write_lr s val idx c).v_pmr = s.v_pmr := by
  simp [vifctrl.write_lr, vifctrl.set_lr_cpuid, vifctrl.set_lr_hw,
    vifctrl.set_lr_physid, vifctrl.set_lr_pending, vifctrl.set_lr_active,
    vifctrl.set_lr_prio, vifctrl.set_lr_vid, gic_update_v_pmr,
    apply_ite (fun u : Gic => u.v_pmr)]

theorem write_lr_v_rpr (s : Gic) (val idx c : Nat) :
    (vifctrl.write_lr s val idx c).v_rpr = s.v_rpr := by
  simp [vifctrl.write_lr, vifctrl.set_lr_cpuid, vifctrl.set_lr_hw,
    vifctrl.set_lr_physid, vifctrl.set_lr_pending, vifctrl.set_lr_active,
    vifctrl.set_lr_prio, vifctrl.set_lr_vid, gic_update_v_rpr,
    apply_ite (fun u : Gic => u.v_rpr)]

theorem write_lr_active (s : Gic) (val idx c : Nat) :
    (vifctrl.write_lr s val idx c).active = s.active := by
  simp [vifctrl.write_lr, vifctrl.set_lr_cpuid, vifctrl.set_lr_hw,
    vifctrl.set_lr_physid, vifctrl.set_lr_pending, vifctrl.set_lr_active,
    vifctrl.set_lr_prio, vifctrl.set_lr_vid, gic_update_active,
    apply_ite (fun u : Gic => u.active)]

theorem write_lr_irq_num (s : Gic) (val idx c : Nat) :
    (vifctrl.write_lr s val idx c).irq_num = s.irq_num := by
  simp [vifctrl.write_lr, vifctrl.set_lr_cpuid, vifctrl.set_lr_hw,
    vifctrl.set_lr_physid, vifctrl.set_lr_pending, vifctrl.set_lr_active,
    vifctrl.set_lr_prio, vifctrl.set_lr_vid, gic_update_irq_num,
    apply_ite (fun u : Gic => u.irq_num)]

theorem v_hppir_after_update (X : Gic) (c : Nat)
    (hc : c < (gic_update true X).cpu_num) :
    (gic_update true X).v_hppir c = vHppirVal (gic_update true X) c := by
  rw [gic_update_cpu_num] at hc
  rw [gic_update_v_hppir X c hc]
  unfold vHppirVal bestVirt lrStep
  simp only [gic_update_hcr, gic_update_lr_state, gic_update_lr, gic_update_v_pmr]

theorem write_lr_v_hppir (s : Gic) (val idx c : Nat) (hc : c < s.cpu_num) :
    (vifctrl.write_lr s val idx c).v_hppir c
      = vHppirVal (vifctrl.write_lr s val idx c) c := by
  have hc2 : c < (vifctrl.write_lr s val idx c).cpu_num := by
    rw [write_lr_cpu_num]
    exact hc
  unfold vifctrl.write_lr at hc2 ⊢
  exact v_hppir_after_update _ c hc2

/- ----------------------------------------------------------------- -/
/- Claim C4: virtual interrupt with hw = 1                           -/
/- ----------------------------------------------------------------- -/

/-- Acknowledging through the virtual CPU interface when the virtual
HPPIR names virtual IRQ 10 carried by the single active-or-pending list
register `idx`: the returned value is 10, the list register becomes
active and not pending, and everything else (other list registers, the
physical active bits, the IRQ count) is unchanged. -/
theorem vcpuif_read_iar_c4_general (T : Gic) (c idx : Nat)
    (hidx : idx < NLR)
    (hhp : T.v_hppir c = 10)
    (hvid : (T.lr_state c idx).virtual_id = 10)
    (hpend : (T.lr_state c idx).pending = true)
    (hprio : (T.lr_state c idx).prio = 0)
    (hcpuid : (T.lr_state c idx).cpu_id = 0)
    (ho : ∀ j, j < NLR → j ≠ idx →
      (T.lr_state c j).pending = false ∧ (T.lr_state c j).active = false)
    (hrpr : 0 < T.v_rpr c) :
    ((vcpuif.read_iar T c).1 = 10)
    ∧ ((vcpuif.read_iar T c).2.lr_state c idx
        = { T.lr_state c idx with active := true, pending := false })
    ∧ (∀ j, j ≠ idx → (vcpuif.read_iar T c).2.lr_state c j = T.lr_state c j)
    ∧ ((vcpuif.read_iar T c).2.active = T.active)
    ∧ ((vcpuif.read_iar T c).2.irq_num = T.irq_num) := by
  have hfind : (List.range NLR).find? (fun i =>
      decide ((T.lr_state c i).virtual_id = 10) &&
      ((T.lr_state c i).active || (T.lr_state c i).pending)) = some idx := by
    apply find_range_unique _ idx ?_ NLR hidx ?_
    · simp [hvid, hpend]
    · intro j hj hne
      simp [(ho j hj hne).1, (ho j hj hne).2]
  have hgp : vifctrl.get_irq_priority T c 10 = 0 := by
    unfold vifctrl.get_irq_priority
    rw [hfind]
    exact hprio
  have hguard : ¬ (10 = SPURIOUS_IRQ ∨ T.v_rpr c ≤ vifctrl.get_irq_priority T c 10) := by
    rintro (hx | hx)
    · exact absurd hx (by decide)
    · rw [hgp] at hx
      omega
  unfold vcpuif.read_iar
  rw [hhp, if_neg hguard]
  refine ⟨?_, ?_, ?_, ?_, ?_⟩
  · simp only [vifctrl.get_lr, vifctrl.set_lr_active, vifctrl.set_lr_pending,
      upd2, gic_update_lr_state, hfind, hcpuid]
    simp
  · simp only [vifctrl.get_lr, vifctrl.set_lr_active, vifctrl.set_lr_pending,
      upd2, gic_update_lr_state, hfind]
    simp
  · intro j hne
    simp only [vifctrl.get_lr, vifctrl.set_lr_active, vifctrl.set_lr_pending,
      upd2, gic_update_lr_state, hfind]
    simp [hne]
  · simp only [vifctrl.get_lr, vifctrl.set_lr_active, vifctrl.set_lr_pending,
      gic_update_active]
  · simp only [vifctrl.get_lr, vifctrl.set_lr_active, vifctrl.set_lr_pending,
      gic_update_irq_num]

/-- Virtual EOIR of virtual IRQ 10 carried by the single
active-or-pending hardware list register `idx` with `physical_id = 42`:
the list register is deactivated and physical IRQ 42 loses the CPU's
active bit. -/
theorem vcpuif_write_eoir_c4_general (T : Gic) (c idx : Nat)
    (hidx : idx < NLR)
    (hvid : (T.lr_state c idx).virtual_id = 10)
    (hact : (T.lr_state c idx).active = true)
    (hhw : (T.lr_state c idx).hw = true)
    (hphys : (T.lr_state c idx).physical_id = 42)
    (ho : ∀ j, j < NLR → j ≠ idx →
      (T.lr_state c j).pending = false ∧ (T.lr_state c j).active = false)
    (hnum : 10 < T.irq_num) :
    (((vcpuif.write_eoir T 10 c).lr_state c idx).active = false)
    ∧ ((vcpuif.write_eoir T 10 c).active 42 = bitClear (T.active 42) (1 <<< c)) := by
  have hfind : (List.range NLR).find? (fun i =>
      decide ((T.lr_state c i).virtual_id = 10) &&
      ((T.lr_state c i).active || (T.lr_state c i).pending)) = some idx := by
    apply find_range_unique _ idx ?_ NLR hidx ?_
    · simp [hvid, hact]
    · intro j hj hne
      simp [(ho j hj hne).1, (ho j hj hne).2]
  have hnle : ¬ T.irq_num ≤ 10 &&& 0x1ff := by
    intro hx
    have : (10 : Nat) &&& 0x1ff = 10 := by decide
    omega
  unfold vcpuif.write_eoir
  rw [if_neg hnle]
  have h10 : (10 : Nat) &&& 0x1ff = 10 := by decide
  constructor
  · simp only [h10, vifctrl.get_lr, vifctrl.set_lr_active, set_irq_active,
      upd2, gic_update_lr_state, hfind]
    simp [upd2, apply_ite (fun u : Gic => u.lr_state c idx)]
  · simp only [h10, vifctrl.get_lr, vifctrl.set_lr_active, set_irq_active,
      upd2, gic_update_active, hfind, hhw, hphys]
    simp [upd2, apply_ite (fun u : Gic => u.active 42), bitClear,
      (by decide : ¬ ((42 : Nat) < NSGI ∨ NIRQ < 42))]

/-- Decoded list-register state written by the claim C4 value: pending,
hardware, priority 0, virtual id 10, physical id 42, source-CPU id 0. -/
theorem write_lr_c4_lr_state (s : Gic) (idx c : Nat) :
    (vifctrl.write_lr s c4_lrval idx c).lr_state c idx
      = { pending := true, active := (s.lr_state c idx).active, hw := true,
          prio := 0, virtual_id := 10, physical_id := 42, cpu_id := 0 } := by
  simp [vifctrl.write_lr, vifctrl.set_lr_cpuid, vifctrl.set_lr_hw,
    vifctrl.set_lr_physid, vifctrl.set_lr_pending, vifctrl.set_lr_active,
    vifctrl.set_lr_prio, vifctrl.set_lr_vid, upd2, gic_update_lr_state, c4_lrval,
    (by decide : (9 : Nat) &&& 3 = 1), (by decide : (1 : Nat) &&& 1 = 1),
    (by decide : (1 : Nat) &&& 2 = 0), (by decide : (288 : Nat) &&& 31 = 0),
    (by decide : (2359338 : Nat) &&& 511 = 42),
    (by decide : (2415962122 : Nat) &&& 511 = 10)]

theorem write_lr_c4_lr_state_other (s : Gic) (idx c j : Nat) (hne : j ≠ idx) :
    (vifctrl.write_lr s c4_lrval idx c).lr_state c j = s.lr_state c j := by
  simp [vifctrl.write_lr, vifctrl.set_lr_cpuid, vifctrl.set_lr_hw,
    vifctrl.set_lr_physid, vifctrl.set_lr_pending, vifctrl.set_lr_active,
    vifctrl.set_lr_prio, vifctrl.set_lr_vid, upd2, gic_update_lr_state, c4_lrval,
    hne,
    (by decide : (9 : Nat) &&& 3 = 1), (by decide : (1 : Nat) &&& 1 = 1),
    (by decide : (1 : Nat) &&& 2 = 0), (by decide : (288 : Nat) &&& 31 = 0),
    (by decide : (2359338 : Nat) &&& 511 = 42),
    (by decide : (2415962122 : Nat) &&& 511 = 10)]

theorem write_lr_c4_lr (s : Gic) (idx c : Nat) :
    (vifctrl.write_lr s c4_lrval idx c).lr c idx = c4_lrval := by
  simp [vifctrl.write_lr, vifctrl.set_lr_cpuid, vifctrl.set_lr_hw,
    vifctrl.set_lr_physid, vifctrl.set_lr_pending, vifctrl.set_lr_active,
    vifctrl.set_lr_prio, vifctrl.set_lr_vid, upd2, gic_update_lr, c4_lrval,
    (by decide : (9 : Nat) &&& 3 = 1), (by decide : (1 : Nat) &&& 1 = 1),
    (by decide : (1 : Nat) &&& 2 = 0), (by decide : (288 : Nat) &&& 31 = 0),
    (by decide : (2359338 : Nat) &&& 511 = 42),
    (by decide : (2415962122 : Nat) &&& 511 = 10)]

/-- After a hypervisor writes the claim C4 list-register value, the
virtual update elects virtual IRQ 10 into the virtual HPPIR bank. -/
theorem write_lr_c4_v_hppir (s : Gic) (idx c : Nat)
    (hc : c < s.cpu_num) (hidx : idx < NLR) (hhcr : s.hcr c ≠ 0)
    (hpmr : 0 < s.v_pmr c)
    (hothers : ∀ j, j < NLR → j ≠ idx →
      (s.lr_state c j).pending = false ∧ (s.lr_state c j).active = false) :
    (vifctrl.write_lr s c4_lrval idx c).v_hppir c = 10 := by
  have hbest : bestVirt (vifctrl.write_lr s c4_lrval idx c) c = (0, 10) := by
    unfold bestVirt
    rw [foldl_single_range (lrStep (vifctrl.write_lr s c4_lrval idx c) c) NLR idx
      hidx ?_ ( IDLE_PRIO, SPURIOUS_IRQ)]
    · unfold lrStep
      rw [write_lr_c4_lr_state, write_lr_c4_lr]
      simp [c4_lrval, IDLE_PRIO,
        (by decide : (288 : Nat) &&& 31 = 0),
        (by decide : (2415962122 : Nat) &&& 511 = 10)]
    · intro acc j hj hne
      unfold lrStep
      rw [write_lr_c4_lr_state_other s idx c j hne]
      simp [(hothers j hj hne).1]
  rw [write_lr_v_hppir s c4_lrval idx c hc]
  unfold vHppirVal
  rw [write_lr_hcr, if_neg hhcr, hbest, write_lr_v_pmr]
  simp [hpmr]

/-- Claim C4: writing a list register with `hw = 1`, `physical_id = 42`,
`virtual_id = 10`, `pending = 1` for CPU `c` makes a subsequent virtual
IAR read by `c` return virtual IRQ 10 with that list register turning
active and not pending, and a subsequent virtual EOIR write of 10 by `c`
deactivates the list register and clears the active bit of physical IRQ
42 for CPU `c` in the distributor. -/
theorem gic400_c4 (s : Gic) (c idx : Nat)
    (hc : c < s.cpu_num) (hidx : idx < NLR) (hhcr : s.hcr c ≠ 0)
    (hpmr : 0 < s.v_pmr c) (hrpr : 0 < s.v_rpr c) (hnum : 10 < s.irq_num)
    (hothers : ∀ j, j < NLR → j ≠ idx →
      (s.lr_state c j).pending = false ∧ (s.lr_state c j).active = false) :
    ((vcpuif.read_iar (vifctrl.write_lr s c4_lrval idx c) c).1 = 10)
    ∧ (((vcpuif.read_iar (vifctrl.write_lr s c4_lrval idx c) c).2.lr_state c idx).active
        = true)
    ∧ (((vcpuif.read_iar (vifctrl.write_lr s c4_lrval idx c) c).2.lr_state c idx).pending
        = false)
    ∧ (((vcpuif.write_eoir
          (vcpuif.read_iar (vifctrl.write_lr s c4_lrval idx c) c).2 10 c).lr_state
            c idx).active = false)
    ∧ (((vcpuif.write_eoir
          (vcpuif.read_iar (vifctrl.write_lr s c4_lrval idx c) c).2 10 c).active
            42).testBit c = false) := by
  have hA := write_lr_c4_lr_state s idx c
  have hD := write_lr_c4_v_hppir s idx c hc hidx hhcr hpmr hothers
  have ho1 : ∀ j, j < NLR → j ≠ idx →
      ((vifctrl.write_lr s c4_lrval idx c).lr_state c j).pending = false
      ∧ ((vifctrl.write_lr s c4_lrval idx c).lr_state c j).active = false := by
    intro j hj hne
    rw [write_lr_c4_lr_state_other s idx c j hne]
    exact hothers j hj hne
  have hrpr1 : 0 < (vifctrl.write_lr s c4_lrval idx c).v_rpr c := by
    rw [write_lr_v_rpr]
    exact hrpr
  obtain ⟨hv, hsl, hslo, hac, hin⟩ :=
    vcpuif_read_iar_c4_general (vifctrl.write_lr s c4_lrval idx c) c idx hidx hD
      (by rw [hA]) (by rw [hA]) (by rw [hA]) (by rw [hA]) ho1 hrpr1
  have ho2 : ∀ j, j < NLR → j ≠ idx →
      (((vcpuif.read_iar (vifctrl.write_lr s c4_lrval idx c) c).2.lr_state c j).pending
        = false)
      ∧ (((vcpuif.read_iar (vifctrl.write_lr s c4_lrval idx c) c).2.lr_state c j).active
        = false) := by
    intro j hj hne
    rw [hslo j hne]
    exact ho1 j hj hne
  have hnum2 :
      10 < (vcpuif.read_iar (vifctrl.write_lr s c4_lrval idx c) c).2.irq_num := by
    rw [hin, write_lr_irq_num]
    exact hnum
  obtain ⟨he1, he2⟩ :=
    vcpuif_write_eoir_c4_general
      (vcpuif.read_iar (vifctrl.write_lr s c4_lrval idx c) c).2 c idx hidx
      (by rw [hsl, hA]) (by rw [hsl]) (by rw [hsl, hA]) (by rw [hsl, hA]) ho2 hnum2
  refine ⟨hv, by rw [hsl], by rw [hsl], he1, ?_⟩
  rw [he2, hac, write_lr_active, testBit_bitClear, Nat.one_shiftLeft,
    Nat.testBit_two_pow_self]
  simp

/-- Claim C4, witness: the scenario theorem at `c4w_state` (virtual
interface enabled, open virtual priority mask, idle list registers,
physical IRQ 42 active for CPU 0), list register 0, CPU 0. -/
theorem gic400_c4_witness :
    (c4w_state.hcr 0 ≠ 0 ∧ 0 < c4w_state.v_pmr 0 ∧ 0 < c4w_state.v_rpr 0
      ∧ 10 < c4w_state.irq_num)
    ∧ ((vcpuif.read_iar (vifctrl.write_lr c4w_state c4_lrval 0 0) 0).1 = 10)
    ∧ (((vcpuif.write_eoir
          (vcpuif.read_iar (vifctrl.write_lr c4w_state c4_lrval 0 0) 0).2 10 0).active
            42).testBit 0 = false) := by
  have h := gic400_c4 c4w_state 0 0 (by decide) (by decide) (by decide) (by decide)
    (by decide) (by decide) (by decide)
  exact ⟨⟨by decide, by decide, by decide, by decide⟩, h.1, h.2.2.2.2⟩
